import Mathlib

/-!
# ASPECT: depletion strengthening and compositional heating

A shallow embedding of

* `source/material_model/rheology/depletion_strengthening.cc`
  (`DepletionStrengthening::compute_depl_effect`, `declare_parameters`, and
  the `parse_parameters` that the file defines under the class name
  `DiffusionCreep`), and
* `source/heating_model/compositional_heating.cc`
  (`CompositionalHeating::evaluate`, `parse_parameters`).

Functions that these call and that are not among the sources
(`Utilities::possibly_extend_from_1_to_N`,
`MaterialModel::compute_volume_fractions`, `DepletionStrengthening::melt_fraction`,
the `Introspection` and the `ParameterHandler`) are modelled from the
specification; their doc comments say so.  `compute_strengthening` is the
specification of `compute_depl_effect`, in the words of the spec, next to the
source function as it is written.

The C++ type `double` is embedded as an arbitrary linearly ordered field `α`
in the definitions, and as the real numbers in the theorems; the C library
function `exp` is a parameter of the definitions and is `Real.exp` in the
theorems.  Reading a `std::vector` outside its bounds has no defined
behaviour; it is embedded as the result `none`, and so is a `return` statement
whose operand names a variable that is not in scope.
-/

set_option autoImplicit false
set_option linter.unusedVariables false

namespace aspect

/-! ## The compositional field names (`Introspection`) -/

/-- Modelled from the spec: the class `Introspection` is not part of the
sources at hand.  The spec describes a composition accessor that, "given a
field name, returns an index if the field exists, else reports absence"; the
compositional fields are an ordered sequence addressed by index.  The model is
the ordered list of the names of the compositional fields. -/
structure Introspection where
  composition_names : List String

namespace Introspection

/-- Modelled from the spec: position of the first occurrence of `name`, or
absence. -/
def find_name (name : String) : List String → Option Nat
  | [] => none
  | n :: rest => if n = name then some 0 else (find_name name rest).map (· + 1)

/-- Modelled from the spec: `compositional_name_exists` reports whether a
compositional field of the given name exists. -/
def compositional_name_exists (self : Introspection) (name : String) : Bool :=
  (find_name name self.composition_names).isSome

/-- Modelled from the spec: `compositional_index_for_name` resolves a field
name to its index; `none` when there is no such field. -/
def compositional_index_for_name (self : Introspection) (name : String) : Option Nat :=
  find_name name self.composition_names

/-- Modelled from the spec: the number `N` of compositional fields, which is
the length of every composition vector. -/
def n_compositional_fields (self : Introspection) : Nat :=
  self.composition_names.length

end Introspection

/-! ## Run-time parameters (`ParameterHandler`, `Patterns::Double`) -/

namespace Patterns

/-- Modelled from the spec: the parameter patterns of the deal.II library are
not part of the sources at hand.  `Patterns::Double (lower, upper)` describes
the values a parameter may take, "an out-of-bounds parameter" being a
configuration error; a bound that the declaration leaves out is `none`, so
`Patterns::Double ()` is `⟨none, none⟩` and `Patterns::Double (0)` is
`⟨some 0, none⟩`. -/
structure Double (α : Type) where
  lower_bound : Option α
  upper_bound : Option α

/-- Modelled from the spec: a value matches the pattern when it lies within
the bounds that are given. -/
def Double.match_value {α : Type} [LinearOrderedField α] (self : Double α) (v : α) : Bool :=
  self.lower_bound.all (fun l => decide (l ≤ v))
    && self.upper_bound.all (fun u => decide (v ≤ u))

end Patterns

/-- Modelled from the spec: one declared parameter of the configuration
mapping, with its key, its current value and its pattern. -/
structure ParameterEntry (α : Type) where
  key : String
  value : α
  pattern : Patterns.Double α

/-- Modelled from the spec: the `ParameterHandler` of the deal.II library is
not part of the sources at hand.  It is the "configuration mapping (string key
→ value)" of the spec, here the list of the declared entries in the order of
their declaration. -/
structure ParameterHandler (α : Type) where
  entries : List (ParameterEntry α)

namespace ParameterHandler

variable {α : Type} [LinearOrderedField α]

/-- Modelled from the spec: `declare_entry` declares a parameter with its
default value and its pattern (a second declaration of a key replaces the
first). -/
def declare_entry (prm : ParameterHandler α) (key : String) (default_value : α)
    (pattern : Patterns.Double α) : ParameterHandler α :=
  ⟨prm.entries.filter (fun e => e.key != key) ++ [⟨key, default_value, pattern⟩]⟩

/-- Modelled from the spec: assignment of `v` to the entry `key` in a list of
entries; it fails when the key is not declared or the value does not match the
pattern of the entry. -/
def set_entries (key : String) (v : α) :
    List (ParameterEntry α) → Option (List (ParameterEntry α))
  | [] => none
  | e :: rest =>
    if e.key = key then
      if e.pattern.match_value v then some ({ e with value := v } :: rest) else none
    else (set_entries key v rest).map (e :: ·)

/-- Auxiliary Boolean for the proofs: whether `set_entries key v` succeeds on a
list of entries; it reads the keys and the patterns only. -/
def accepts_entries (key : String) (v : α) : List (ParameterEntry α) → Bool
  | [] => false
  | e :: rest => if e.key = key then e.pattern.match_value v else accepts_entries key v rest

/-- Modelled from the spec: one line `set key = v` of the input.  It is a
configuration error (`none`) when the key is not declared or the value is out
of the bounds of its pattern. -/
def set_value (prm : ParameterHandler α) (key : String) (v : α) :
    Option (ParameterHandler α) :=
  (set_entries key v prm.entries).map ParameterHandler.mk

/-- Modelled from the spec: reading an input, one assignment after the other;
the first configuration error ends it. -/
def parse_input (prm : ParameterHandler α) (input : List (String × α)) :
    Option (ParameterHandler α) :=
  input.foldlM (fun prm kv => prm.set_value kv.1 kv.2) prm

/-- Modelled from the spec: `get_double` returns the current value of a
declared entry; `none` when the key is not declared. -/
def get_double (prm : ParameterHandler α) (key : String) : Option α :=
  (prm.entries.find? (fun e => e.key == key)).map (·.value)

end ParameterHandler

namespace MaterialModel
namespace Rheology

/-- The private data members of `DepletionStrengthening`
(`depletion_strengthening.h`, lines 78-92). -/
structure DepletionStrengthening (α : Type) where
  A1 : α
  A2 : α
  A3 : α
  B1 : α
  B2 : α
  B3 : α
  C1 : α
  C2 : α
  C3 : α
  r1 : α
  r2 : α
  beta : α
  M_cpx : α
  alpha_depletion : α
  delta_eta_depletion_max : α

namespace DepletionStrengthening

variable {α : Type} [LinearOrderedField α]

/-- Specification of the depletion strengthening factor, in the words of the
spec (section 4.3, `compute_strengthening`): "resolve the index of the
depletion field by name"; "if absent, return `1.0`"; "if present, let
`d = clamp(composition[index], 0, 1)`" and
"`factor = min(exp(alpha_depletion · d), delta_eta_depletion_max)`".  These are
also the two values that the branches of the source function
`compute_depl_effect` compute, with `composition` the `std::vector<double>` of
the declaration in the header. -/
def compute_strengthening (exp : α → α) (self : DepletionStrengthening α)
    (introspection : Introspection) (pressure temperature : α)
    (composition : List α) : Option α :=
  if introspection.compositional_name_exists "maximum_melt_fraction" then do
    -- extract depletion = maximum experienced melt fraction:
    let melt_index ← introspection.compositional_index_for_name "maximum_melt_fraction"
    let c ← composition[melt_index]?
    let depletion_visc := min 1 (max c 0)
    -- calculate strengthening due to depletion:
    let depletion_strengthening :=
      min (exp (self.alpha_depletion * depletion_visc)) self.delta_eta_depletion_max
    pure depletion_strengthening
  else
    let depletion_strengthening := 1
    pure depletion_strengthening

/-- Embedding of `DepletionStrengthening::compute_depl_effect`
(`depletion_strengthening.cc`, lines 41-64) as the source writes it.  Each
branch of the conditional declares a `const double depletion_strengthening` of
its own, and the declaration ends with the block of the branch (lines 57 and
61); the statement `return depletion_strengthening;` of line 63 stands after
the conditional, where no declaration of that name is in scope.  The function
therefore has no value to return on any input, which is the result `none`.
(The definition in the `.cc` file also declares `composition` as
`unsigned int` and indexes it; the argument here has the type of the
declaration in the header.) -/
def compute_depl_effect (exp : α → α) (self : DepletionStrengthening α)
    (introspection : Introspection) (pressure temperature : α)
    (composition : List α) : Option α :=
  if introspection.compositional_name_exists "maximum_melt_fraction" then do
    -- extract depletion = maximum experienced melt fraction:
    let melt_index ← introspection.compositional_index_for_name "maximum_melt_fraction"
    let c ← composition[melt_index]?
    let depletion_visc := min 1 (max c 0)
    -- calculate strengthening due to depletion:
    let depletion_strengthening :=
      min (exp (self.alpha_depletion * depletion_visc)) self.delta_eta_depletion_max
    -- the block ends: its `depletion_strengthening` is out of scope at the return
    none
  else
    let depletion_strengthening := 1
    -- the block ends: its `depletion_strengthening` is out of scope at the return
    none

/-- Embedding of `DepletionStrengthening::declare_parameters`
(`depletion_strengthening.cc`, lines 67-171): the fifteen entries with their
default values and patterns, in the order of the source. -/
def declare_parameters (prm : ParameterHandler α) : ParameterHandler α :=
  -- Mantle melting parameterization following notation of Katz et al. (2003)
  let prm := prm.declare_entry "A1" 1085.7 ⟨none, none⟩
  let prm := prm.declare_entry "A2" 1.329e-7 ⟨none, none⟩
  let prm := prm.declare_entry "A3" (-5.1e-18) ⟨none, none⟩
  let prm := prm.declare_entry "B1" 1475.0 ⟨none, none⟩
  let prm := prm.declare_entry "B2" 8.0e-8 ⟨none, none⟩
  let prm := prm.declare_entry "B3" (-3.2e-18) ⟨none, none⟩
  let prm := prm.declare_entry "C1" 1780.0 ⟨none, none⟩
  let prm := prm.declare_entry "C2" 4.50e-8 ⟨none, none⟩
  let prm := prm.declare_entry "C3" (-2.0e-18) ⟨none, none⟩
  let prm := prm.declare_entry "r1" 0.5 ⟨none, none⟩
  let prm := prm.declare_entry "r2" 8e-11 ⟨none, none⟩
  let prm := prm.declare_entry "beta" 1.5 ⟨none, none⟩
  let prm := prm.declare_entry "Mass fraction cpx" 0.15 ⟨none, none⟩
  let prm := prm.declare_entry "Exponential depletion strengthening factor" 0.0
    ⟨some 0, none⟩
  let prm := prm.declare_entry "Maximum Depletion viscosity change" 1.0e3
    ⟨some 0, none⟩
  prm

end DepletionStrengthening

namespace DiffusionCreep

variable {α : Type} [LinearOrderedField α]

/-- Embedding of `DiffusionCreep<dim>::parse_parameters`
(`depletion_strengthening.cc`, lines 173-193), under the class name that the
source gives it.  The names it assigns are the fifteen data members that the
header declares for `DepletionStrengthening`, so the result is a record of
that class.  A `get_double` of a key that is not declared ends it with an
error (`none`). -/
def parse_parameters (prm : ParameterHandler α) : Option (DepletionStrengthening α) := do
  -- Mantle melting parameterization following notation of Katz et al. (2003)
  let some A1 := prm.get_double "A1" | none
  let some A2 := prm.get_double "A2" | none
  let some A3 := prm.get_double "A3" | none
  let some B1 := prm.get_double "B1" | none
  let some B2 := prm.get_double "B2" | none
  let some B3 := prm.get_double "B3" | none
  let some C1 := prm.get_double "C1" | none
  let some C2 := prm.get_double "C2" | none
  let some C3 := prm.get_double "C3" | none
  let some r1 := prm.get_double "r1" | none
  let some r2 := prm.get_double "r2" | none
  let some beta := prm.get_double "beta" | none
  let some M_cpx := prm.get_double "Mass fraction cpx" | none
  let some alpha_depletion := prm.get_double "Exponential depletion strengthening factor" | none
  let some delta_eta_depletion_max := prm.get_double "Maximum Depletion viscosity change" | none
  pure { A1, A2, A3, B1, B2, B3, C1, C2, C3, r1, r2, beta, M_cpx,
         alpha_depletion, delta_eta_depletion_max }

end DiffusionCreep

namespace DepletionStrengthening

variable {α : Type} [LinearOrderedField α]

/-- Modelled from the spec: the configuration step, in which the parameter set
"is built once from configuration": the parameters are declared, the input is
read against the declarations, and the `parse_parameters` of the source file
reads the values back into the data members.  `none` is a configuration
error. -/
def configure (input : List (String × α)) : Option (DepletionStrengthening α) :=
  ((declare_parameters ⟨[]⟩).parse_input input).bind DiffusionCreep.parse_parameters

end DepletionStrengthening
end Rheology
end MaterialModel

/-- Modelled from the spec: the declaration of
`MaterialModel::MaterialModelInputs` is not part of the sources at hand.  The
field is the one `CompositionalHeating::evaluate` reads: for every evaluation
point the composition vector. -/
structure MaterialModel.MaterialModelInputs (α : Type) where
  composition : List (List α)

namespace HeatingModel

/-- Modelled from the spec: the declaration of
`HeatingModel::HeatingModelOutputs` is not part of the sources at hand.  The
fields are the two `CompositionalHeating::evaluate` writes, the heat source
term and the latent heat term of every evaluation point. -/
structure HeatingModelOutputs (α : Type) where
  heating_source_terms : List α
  lhs_latent_heat_terms : List α

/-- Modelled from the spec: the header of `CompositionalHeating` is not part of
the sources at hand.  The data members are the two that `evaluate` reads and
`parse_parameters` fills (`compositional_heating.cc`, lines 99-108): the
averaging mask of booleans and the heat production values. -/
structure CompositionalHeating (α : Type) where
  fields_used_in_heat_production_averaging : List Bool
  heating_values : List α

/-- Embedding of the assignment `v[i] = x` to an element of a `std::vector`;
`none` when `i` is not an index of `v`. -/
def assign_at {α : Type} (v : List α) (i : Nat) (x : α) : Option (List α) :=
  if i < v.length then some (v.set i x) else none

namespace CompositionalHeating

variable {α : Type} [LinearOrderedField α]

/-- Embedding of the inner loop of `CompositionalHeating::evaluate`
(`compositional_heating.cc`, lines 44-47): the average compositional heat
production, accumulated from `0.` over `c = 0, ..., volume_fractions.size()-1`. -/
def average_heat_production (volume_fractions heating_values : List α) : Option α :=
  (List.range volume_fractions.length).foldlM
    (fun compositional_heat_production c => do
      let vf ← volume_fractions[c]?
      let hv ← heating_values[c]?
      pure (compositional_heat_production + vf * hv))
    0

/-- Embedding of `CompositionalHeating::evaluate` (`compositional_heating.cc`,
lines 31-52), a loop over `q = 0, ..., heating_source_terms.size()-1`.
The function `MaterialModel::compute_volume_fractions`, which is not part of
the sources at hand, is the parameter `compute_volume_fractions`. -/
def evaluate (compute_volume_fractions : List α → List Bool → List α)
    (self : CompositionalHeating α)
    (material_model_inputs : MaterialModel.MaterialModelInputs α)
    (heating_model_outputs : HeatingModelOutputs α) : Option (HeatingModelOutputs α) :=
  (List.range heating_model_outputs.heating_source_terms.length).foldlM
    (fun heating_model_outputs q => do
      -- Compute compositional volume fractions
      let composition_q ← material_model_inputs.composition[q]?
      let volume_fractions :=
        compute_volume_fractions composition_q self.fields_used_in_heat_production_averaging
      -- Calculate average compositional heat production
      let compositional_heat_production ←
        average_heat_production volume_fractions self.heating_values
      let heating_source_terms ←
        assign_at heating_model_outputs.heating_source_terms q compositional_heat_production
      let lhs_latent_heat_terms ←
        assign_at heating_model_outputs.lhs_latent_heat_terms q 0
      pure ⟨heating_source_terms, lhs_latent_heat_terms⟩)
    heating_model_outputs

end CompositionalHeating
end HeatingModel

/-! ## Run-time parameters of `CompositionalHeating` -/

namespace Utilities

/-- Modelled from the spec: `Utilities::possibly_extend_from_1_to_N` is not
part of the sources at hand.  The spec describes it as the policy for per-field
lists: "a single scalar is permitted and is broadcast to all N+1 entries — an
explicit \"extend one to N\" policy, not silent truncation", and a "length
mismatch between a per-field list and the field count" is a configuration
error, here `none`.  The third argument of the call, the name of the entry for
the error message, is left out. -/
def possibly_extend_from_1_to_N {β : Type} (values : List β) (N : Nat) :
    Option (List β) :=
  match values with
  | [v] => some (List.replicate N v)
  | _ => if values.length = N then some values else none

end Utilities

namespace HeatingModel

/-- Embedding of `std::vector<bool>::resize (n)`: the first `n` elements are
kept, and `false` fills the vector up to `n` elements. -/
def resize (v : List Bool) (n : Nat) : List Bool :=
  v.take n ++ List.replicate (n - v.length) false

namespace CompositionalHeating

variable {α : Type} [LinearOrderedField α]

/-- Embedding of `CompositionalHeating::parse_parameters`
(`compositional_heating.cc`, lines 80-113).  The arguments `used_fields_entry`
and `heating_values_entry` are the lists that `Utilities::string_to_int` and
`Utilities::string_to_double` return for the entries "Use compositional field
for heat production averaging" and "Compositional heating values"; the
conversion of the strings is outside the embedding.  An integer is stored in
the mask as the boolean `used_fields[i] != 0`. -/
def parse_parameters (self : CompositionalHeating α) (introspection : Introspection)
    (used_fields_entry : List Int) (heating_values_entry : List α) :
    Option (CompositionalHeating α) := do
  -- increment by one for background:
  let n_fields := introspection.n_compositional_fields + 1
  let used_fields ← Utilities.possibly_extend_from_1_to_N used_fields_entry n_fields
  let fields_used_in_heat_production_averaging ←
    (List.range used_fields.length).foldlM
      (fun fields_used_in_heat_production_averaging i => do
        let used ← used_fields[i]?
        assign_at fields_used_in_heat_production_averaging i (used != 0))
      (resize self.fields_used_in_heat_production_averaging used_fields.length)
  let heating_values ← Utilities.possibly_extend_from_1_to_N heating_values_entry n_fields
  pure ⟨fields_used_in_heat_production_averaging, heating_values⟩

end CompositionalHeating
end HeatingModel

/-! ## Composition averaging (`compute_volume_fractions`) -/

namespace MaterialModel

/-- Modelled from the spec: the policy of `volume_fractions` (spec section
4.4) on a list of raw values that has one value for every entry of the mask,
the value of the background field first: "clip every raw field value to ≥0",
"zero out fields excluded by the mask", "renormalize the remaining values to
sum to 1"; and when "all included values clip to 0", the "full weight (1.0)"
goes "to the background field". -/
def volume_fractions {α : Type} [LinearOrderedField α]
    (raw : List α) (field_mask : List Bool) : List α :=
  -- clip every raw value, zero out the values excluded by the mask
  let x_comp := List.zipWith (fun x (included : Bool) => if included then max x 0 else 0)
    raw field_mask
  if x_comp.all (fun x => decide (x = 0)) then
    -- all included values clip to 0: full weight to the background field
    match x_comp with
    | [] => []
    | _ :: fields => 1 :: fields
  else
    -- renormalize the remaining values to sum to 1
    let sum_composition := x_comp.sum
    x_comp.map (fun x => x / sum_composition)

/-- Modelled from the spec: `MaterialModel::compute_volume_fractions` is not
part of the sources at hand.  The spec uses it in two shapes.  In its data
model and in section 4.4 the composition vector has one value per
compositional field (`N` values), the mask has "N+1 entries counting an
implicit background field", and the result is an "ordered sequence of N+1
fractions": the background field has no raw value of its own, which is the raw
value 0.  In the examples of section 8 the list of values and the mask have
the same length, and the values are taken as they are
(`[0.3, 0.7]` gives `[0.3, 0.7]`, `[-0.1, 0.5]` gives `[0, 1.0]`).  For lists
of any other lengths the spec gives no result (`none`); a length mismatch is
"a configuration-time error, never an evaluation-time condition". -/
def compute_volume_fractions {α : Type} [LinearOrderedField α]
    (compositional_fields : List α) (field_mask : List Bool) : Option (List α) :=
  if field_mask.length = compositional_fields.length then
    some (volume_fractions compositional_fields field_mask)
  else if field_mask.length = compositional_fields.length + 1 then
    some (volume_fractions (0 :: compositional_fields) field_mask)
  else none

end MaterialModel

/-! ## Melt fraction (`melt_fraction`) -/

namespace MaterialModel
namespace Rheology
namespace DepletionStrengthening

variable {α : Type} [LinearOrderedField α]

/-- Modelled from the spec: the solidus of the phase boundary model,
`A1 + A2·P + A3·P²`. -/
def solidus (self : DepletionStrengthening α) (pressure : α) : α :=
  self.A1 + self.A2 * pressure + self.A3 * pressure ^ 2

/-- Modelled from the spec: the lherzolite liquidus of the phase boundary model,
`B1 + B2·P + B3·P²`. -/
def liquidus_lherzolite (self : DepletionStrengthening α) (pressure : α) : α :=
  self.B1 + self.B2 * pressure + self.B3 * pressure ^ 2

/-- Modelled from the spec: the liquidus of the phase boundary model,
`C1 + C2·P + C3·P²`. -/
def liquidus (self : DepletionStrengthening α) (pressure : α) : α :=
  self.C1 + self.C2 * pressure + self.C3 * pressure ^ 2

/-- Modelled from the spec: the melt fraction at which clinopyroxene is
exhausted, `F_cpx = M_cpx / R` with the reaction coefficient `R = r1 + r2·P`. -/
def F_cpx (self : DepletionStrengthening α) (pressure : α) : α :=
  let R := self.r1 + self.r2 * pressure
  self.M_cpx / R

/-- Modelled from the spec: the first-regime candidate `F1 = T'^β` with the
normalized melting interval `T' = (T − Ts) / (Tl_lherz − Ts)`.  The power
function of the C library is the parameter `pow`. -/
def F1 (pow : α → α → α) (self : DepletionStrengthening α) (temperature pressure : α) : α :=
  let Ts := self.solidus pressure
  let Tl_lherz := self.liquidus_lherzolite pressure
  let T_prime := (temperature - Ts) / (Tl_lherz - Ts)
  pow T_prime self.beta

/-- Modelled from the spec: `DepletionStrengthening::melt_fraction` is declared
in the header (`depletion_strengthening.h`, lines 62-66) and has no definition
in the sources at hand.  The model follows the policy of the spec step by step:
`F = 0` if `T ≤ Ts`; `F = 1` if `T ≥ Tl`; otherwise `F = F1` if `F1 ≤ F_cpx`,
and otherwise the post-exhaustion regime applies, whose closed form the spec
leaves to the cited reference and which is the parameter `post_exhaustion`;
the final result is clamped into `[0,1]`. -/
def melt_fraction (pow : α → α → α)
    (post_exhaustion : DepletionStrengthening α → α → α → α)
    (self : DepletionStrengthening α) (temperature pressure : α)
    (composition : List α) (position : List α) : α :=
  let Ts := self.solidus pressure
  let Tl := self.liquidus pressure
  if temperature ≤ Ts then 0
  else if Tl ≤ temperature then 1
  else
    let F :=
      if self.F1 pow temperature pressure ≤ self.F_cpx pressure then
        self.F1 pow temperature pressure
      else post_exhaustion self temperature pressure
    min 1 (max F 0)

end DepletionStrengthening
end Rheology
end MaterialModel

/-! ## The value an input configures -/

/-- The value that an input configures under `key`, in the words of the spec
the "original parameter value" that reading the parameters back recovers: the
value of the last assignment to `key` in the input, and `current`, the value
before the input is read, when the input does not assign `key`. -/
def configured_value {α : Type} (input : List (String × α)) (key : String)
    (current : α) : α :=
  match input with
  | [] => current
  | kv :: rest => configured_value rest key (if kv.1 = key then kv.2 else current)

/-! ## Theorems -/

open MaterialModel.Rheology HeatingModel

theorem find_name_lt (name : String) (names : List String) (i : Nat)
    (h : Introspection.find_name name names = some i) : i < names.length := by
  induction names generalizing i with
  | nil => simp [Introspection.find_name] at h
  | cons n rest ih =>
    simp only [Introspection.find_name] at h
    split at h
    · simp at h; subst h; simp
    · simp only [Option.map_eq_some'] at h
      obtain ⟨j, hj, rfl⟩ := h
      have := ih j hj
      simp; omega

theorem compute_strengthening_present (p : DepletionStrengthening ℝ)
    (intro : Introspection) (pressure temperature : ℝ) (composition : List ℝ)
    (i : Nat) (x : ℝ)
    (hi : intro.compositional_index_for_name "maximum_melt_fraction" = some i)
    (hx : composition[i]? = some x) :
    p.compute_strengthening Real.exp intro pressure temperature composition
      = some (min (Real.exp (p.alpha_depletion * min 1 (max x 0)))
          p.delta_eta_depletion_max) := by
  have he : intro.compositional_name_exists "maximum_melt_fraction" = true := by
    unfold Introspection.compositional_name_exists
    unfold Introspection.compositional_index_for_name at hi
    rw [hi]; rfl
  simp [DepletionStrengthening.compute_strengthening, he, hi, hx]

theorem compute_strengthening_absent (p : DepletionStrengthening ℝ)
    (intro : Introspection) (pressure temperature : ℝ) (composition : List ℝ)
    (h : intro.compositional_name_exists "maximum_melt_fraction" = false) :
    p.compute_strengthening Real.exp intro pressure temperature composition = some 1 := by
  simp [DepletionStrengthening.compute_strengthening, h]

theorem clamp_mono {x y : ℝ} (h : x ≤ y) : min 1 (max x 0) ≤ min 1 (max y 0) :=
  min_le_min le_rfl (max_le_max h le_rfl)

theorem clamp_nonneg (x : ℝ) : 0 ≤ min 1 (max x 0) :=
  le_min zero_le_one (le_max_right x 0)

theorem compute_depl_effect_none (p : DepletionStrengthening ℝ)
    (intro : Introspection) (pressure temperature : ℝ) (composition : List ℝ) :
    p.compute_depl_effect Real.exp intro pressure temperature composition = none := by
  unfold DepletionStrengthening.compute_depl_effect
  split
  · cases intro.compositional_index_for_name "maximum_melt_fraction" with
    | none => rfl
    | some i =>
      cases hc : composition[i]? with
      | none => simp [hc]
      | some c => simp [hc]
  · rfl

/-- C1 (defect of the code): when the field "maximum_melt_fraction" exists at
index `i` and the composition vector stores `x` there, the value that the
branch computes, and that the specification returns, is
`min (exp (alpha_depletion * d)) delta_eta_depletion_max` with
`d = min 1 (max x 0)`; the source function `compute_depl_effect` declares it
inside the branch and has no value to return. -/
theorem C1_compute_depl_effect_formula (p : DepletionStrengthening ℝ)
    (intro : Introspection) (pressure temperature : ℝ) (composition : List ℝ)
    (i : Nat) (x : ℝ)
    (hi : intro.compositional_index_for_name "maximum_melt_fraction" = some i)
    (hx : composition[i]? = some x) :
    p.compute_depl_effect Real.exp intro pressure temperature composition = none
    ∧ p.compute_strengthening Real.exp intro pressure temperature composition
      = some (min (Real.exp (p.alpha_depletion * min 1 (max x 0)))
          p.delta_eta_depletion_max) :=
  ⟨compute_depl_effect_none p intro pressure temperature composition,
   compute_strengthening_present p intro pressure temperature composition i x hi hx⟩

theorem C1_compute_depl_effect_formula_witness :
    (DepletionStrengthening.mk 0 0 0 0 0 0 0 0 0 0 0 0 0 (2 : ℝ) 1000).compute_depl_effect
        Real.exp ⟨["peridotite", "maximum_melt_fraction"]⟩ 0 0 [1/5, 1/2] = none
    ∧ (DepletionStrengthening.mk 0 0 0 0 0 0 0 0 0 0 0 0 0 (2 : ℝ) 1000).compute_strengthening
        Real.exp ⟨["peridotite", "maximum_melt_fraction"]⟩ 0 0 [1/5, 1/2]
      = some (min (Real.exp (2 * min 1 (max (1/2) 0))) 1000) :=
  C1_compute_depl_effect_formula _ ⟨["peridotite", "maximum_melt_fraction"]⟩ 0 0
    [1/5, 1/2] 1 (1/2) (by decide) rfl

/-- C2 (defect of the code): when no compositional field named
"maximum_melt_fraction" exists, the value that the else branch computes, and
that the specification returns, is exactly 1, whatever the pressure,
temperature, composition vector and parameters are; the source function
`compute_depl_effect` declares it inside the branch and has no value to
return. -/
theorem C2_compute_depl_effect_absent (p : DepletionStrengthening ℝ)
    (intro : Introspection) (pressure temperature : ℝ) (composition : List ℝ)
    (h : intro.compositional_name_exists "maximum_melt_fraction" = false) :
    p.compute_depl_effect Real.exp intro pressure temperature composition = none
    ∧ p.compute_strengthening Real.exp intro pressure temperature composition = some 1 :=
  ⟨compute_depl_effect_none p intro pressure temperature composition,
   compute_strengthening_absent p intro pressure temperature composition h⟩

theorem C2_compute_depl_effect_absent_witness :
    (DepletionStrengthening.mk 0 0 0 0 0 0 0 0 0 0 0 0 0 (2 : ℝ) 1000).compute_depl_effect
        Real.exp ⟨["peridotite", "porosity"]⟩ 3 1600 [7/10, -4] = none
    ∧ (DepletionStrengthening.mk 0 0 0 0 0 0 0 0 0 0 0 0 0 (2 : ℝ) 1000).compute_strengthening
        Real.exp ⟨["peridotite", "porosity"]⟩ 3 1600 [7/10, -4] = some 1 :=
  C2_compute_depl_effect_absent _ ⟨["peridotite", "porosity"]⟩ 3 1600 [7/10, -4]
    (by decide)

/-- C3 (defect of the code): for `alpha_depletion ≥ 0` and
`delta_eta_depletion_max ≥ 1`, and a composition vector with one entry per
compositional field (the depletion field present or absent, the stored value
any real), the factor of the specification exists and satisfies
`1 ≤ factor ≤ delta_eta_depletion_max`; the source function
`compute_depl_effect` returns no factor. -/
theorem C3_compute_depl_effect_bounds (p : DepletionStrengthening ℝ)
    (intro : Introspection) (pressure temperature : ℝ) (composition : List ℝ)
    (halpha : 0 ≤ p.alpha_depletion) (hcap : 1 ≤ p.delta_eta_depletion_max)
    (hlen : composition.length = intro.n_compositional_fields) :
    p.compute_depl_effect Real.exp intro pressure temperature composition = none
    ∧ ∃ factor, p.compute_strengthening Real.exp intro pressure temperature composition
        = some factor
      ∧ 1 ≤ factor ∧ factor ≤ p.delta_eta_depletion_max := by
  refine ⟨compute_depl_effect_none p intro pressure temperature composition, ?_⟩
  cases hfind : intro.compositional_index_for_name "maximum_melt_fraction" with
  | none =>
    refine ⟨1, compute_strengthening_absent p intro pressure temperature composition ?_,
      le_rfl, hcap⟩
    unfold Introspection.compositional_name_exists
    unfold Introspection.compositional_index_for_name at hfind
    rw [hfind]; rfl
  | some i =>
    have hlt : i < composition.length := by
      rw [hlen]; exact find_name_lt _ _ i hfind
    have hx : composition[i]? = some composition[i] := List.getElem?_eq_getElem hlt
    refine ⟨_, compute_strengthening_present p intro pressure temperature composition i _
      hfind hx, ?_, min_le_right _ _⟩
    refine le_min ?_ hcap
    exact Real.one_le_exp (mul_nonneg halpha (clamp_nonneg _))

theorem C3_compute_depl_effect_bounds_witness :
    (DepletionStrengthening.mk 0 0 0 0 0 0 0 0 0 0 0 0 0 (3 : ℝ) 100).compute_depl_effect
        Real.exp ⟨["maximum_melt_fraction", "porosity"]⟩ 0 0 [-2, 5] = none
    ∧ ∃ factor,
      (DepletionStrengthening.mk 0 0 0 0 0 0 0 0 0 0 0 0 0 (3 : ℝ) 100).compute_strengthening
        Real.exp ⟨["maximum_melt_fraction", "porosity"]⟩ 0 0 [-2, 5] = some factor
      ∧ 1 ≤ factor ∧ factor ≤ 100 :=
  C3_compute_depl_effect_bounds (DepletionStrengthening.mk 0 0 0 0 0 0 0 0 0 0 0 0 0 (3 : ℝ) 100)
    ⟨["maximum_melt_fraction", "porosity"]⟩ 0 0 [-2, 5]
    (by norm_num) (by norm_num) rfl

/-- C5 (defect of the code): for `alpha_depletion ≥ 0` and two composition
vectors that both hold the depletion field, a smaller or equal stored depletion
value gives a smaller or equal factor of the specification, the stored values
anywhere on the real line; the source function `compute_depl_effect` returns no
factor for either vector. -/
theorem C5_compute_depl_effect_monotone (p : DepletionStrengthening ℝ)
    (intro : Introspection) (pressure₁ temperature₁ pressure₂ temperature₂ : ℝ)
    (composition₁ composition₂ : List ℝ) (i : Nat) (x₁ x₂ : ℝ)
    (halpha : 0 ≤ p.alpha_depletion)
    (hi : intro.compositional_index_for_name "maximum_melt_fraction" = some i)
    (h₁ : composition₁[i]? = some x₁) (h₂ : composition₂[i]? = some x₂)
    (hle : x₁ ≤ x₂) :
    p.compute_depl_effect Real.exp intro pressure₁ temperature₁ composition₁ = none
    ∧ p.compute_depl_effect Real.exp intro pressure₂ temperature₂ composition₂ = none
    ∧ ∃ f₁ f₂,
      p.compute_strengthening Real.exp intro pressure₁ temperature₁ composition₁ = some f₁
      ∧ p.compute_strengthening Real.exp intro pressure₂ temperature₂ composition₂ = some f₂
      ∧ f₁ ≤ f₂ := by
  refine ⟨compute_depl_effect_none _ _ _ _ _, compute_depl_effect_none _ _ _ _ _, _, _,
    compute_strengthening_present p intro pressure₁ temperature₁ composition₁ i x₁ hi h₁,
    compute_strengthening_present p intro pressure₂ temperature₂ composition₂ i x₂ hi h₂, ?_⟩
  refine min_le_min ?_ le_rfl
  exact Real.exp_le_exp.mpr (mul_le_mul_of_nonneg_left (clamp_mono hle) halpha)

theorem C5_compute_depl_effect_monotone_witness :
    (DepletionStrengthening.mk 0 0 0 0 0 0 0 0 0 0 0 0 0 (3 : ℝ) 100).compute_depl_effect
        Real.exp ⟨["maximum_melt_fraction"]⟩ 0 0 [-2] = none
    ∧ (DepletionStrengthening.mk 0 0 0 0 0 0 0 0 0 0 0 0 0 (3 : ℝ) 100).compute_depl_effect
        Real.exp ⟨["maximum_melt_fraction"]⟩ 0 0 [7] = none
    ∧ ∃ f₁ f₂,
      (DepletionStrengthening.mk 0 0 0 0 0 0 0 0 0 0 0 0 0 (3 : ℝ) 100).compute_strengthening
        Real.exp ⟨["maximum_melt_fraction"]⟩ 0 0 [-2] = some f₁
      ∧ (DepletionStrengthening.mk 0 0 0 0 0 0 0 0 0 0 0 0 0 (3 : ℝ) 100).compute_strengthening
        Real.exp ⟨["maximum_melt_fraction"]⟩ 0 0 [7] = some f₂
      ∧ f₁ ≤ f₂ :=
  C5_compute_depl_effect_monotone
    (DepletionStrengthening.mk 0 0 0 0 0 0 0 0 0 0 0 0 0 (3 : ℝ) 100)
    ⟨["maximum_melt_fraction"]⟩ 0 0 0 0 [-2] [7] 0 (-2) 7
    (by norm_num) (by decide) rfl rfl (by norm_num)

/-- C6 (defect of the code): when the depletion field is present with clamped
value `d` and `exp (alpha_depletion * d) ≤ delta_eta_depletion_max`, the factor
of the specification is `exp (alpha_depletion * d)` itself, and with `d = 1`,
`alpha_depletion = ln 2` and `delta_eta_depletion_max = 10` it is 2; the source
function `compute_depl_effect` returns no factor on any input. -/
theorem C6_compute_depl_effect_uncapped :
    (∀ (p : DepletionStrengthening ℝ) (intro : Introspection)
        (pressure temperature : ℝ) (composition : List ℝ),
      p.compute_depl_effect Real.exp intro pressure temperature composition = none)
    ∧ (∀ (p : DepletionStrengthening ℝ) (intro : Introspection)
        (pressure temperature : ℝ) (composition : List ℝ) (i : Nat) (x : ℝ),
      intro.compositional_index_for_name "maximum_melt_fraction" = some i →
      composition[i]? = some x →
      Real.exp (p.alpha_depletion * min 1 (max x 0)) ≤ p.delta_eta_depletion_max →
      p.compute_strengthening Real.exp intro pressure temperature composition
        = some (Real.exp (p.alpha_depletion * min 1 (max x 0))))
    ∧ (∀ (A1 A2 A3 B1 B2 B3 C1 C2 C3 r1 r2 beta M_cpx : ℝ) (intro : Introspection)
        (pressure temperature : ℝ) (composition : List ℝ) (i : Nat) (x : ℝ),
      intro.compositional_index_for_name "maximum_melt_fraction" = some i →
      composition[i]? = some x →
      min 1 (max x 0) = 1 →
      (DepletionStrengthening.mk A1 A2 A3 B1 B2 B3 C1 C2 C3 r1 r2 beta M_cpx
          (Real.log 2) 10).compute_strengthening Real.exp intro pressure temperature
          composition = some 2) := by
  refine ⟨compute_depl_effect_none, ?_, ?_⟩
  · intro p intro pressure temperature composition i x hi hx hcap
    rw [compute_strengthening_present p intro pressure temperature composition i x hi hx,
      min_eq_left hcap]
  · intro A1 A2 A3 B1 B2 B3 C1 C2 C3 r1 r2 beta M_cpx intro pressure temperature
      composition i x hi hx hd
    rw [compute_strengthening_present _ intro pressure temperature composition i x hi hx]
    simp only [hd, mul_one]
    rw [Real.exp_log (by norm_num : (0 : ℝ) < 2)]
    norm_num

theorem C6_compute_depl_effect_uncapped_witness :
    (DepletionStrengthening.mk 1 2 3 4 5 6 7 8 9 10 11 12 13
          (Real.log 2) 10).compute_depl_effect Real.exp
          ⟨["porosity", "maximum_melt_fraction"]⟩ 0 0 [0, 1] = none
    ∧ (DepletionStrengthening.mk 0 0 0 0 0 0 0 0 0 0 0 0 0 (0 : ℝ) 10).compute_strengthening
        Real.exp ⟨["porosity", "maximum_melt_fraction"]⟩ 0 0 [0, 1/2]
      = some (Real.exp (0 * min 1 (max (1/2) 0)))
    ∧ (DepletionStrengthening.mk 1 2 3 4 5 6 7 8 9 10 11 12 13
          (Real.log 2) 10).compute_strengthening Real.exp
          ⟨["porosity", "maximum_melt_fraction"]⟩ 0 0 [0, 1] = some 2 :=
  ⟨C6_compute_depl_effect_uncapped.1 _ _ _ _ _,
   C6_compute_depl_effect_uncapped.2.1
      (DepletionStrengthening.mk 0 0 0 0 0 0 0 0 0 0 0 0 0 (0 : ℝ) 10)
      ⟨["porosity", "maximum_melt_fraction"]⟩ 0 0 [0, 1/2] 1 (1/2) (by decide) rfl
      (by simp),
   C6_compute_depl_effect_uncapped.2.2 1 2 3 4 5 6 7 8 9 10 11 12 13
      ⟨["porosity", "maximum_melt_fraction"]⟩ 0 0 [0, 1] 1 1 (by decide) rfl
      (by norm_num)⟩

theorem declare_parameters_entries :
    (DepletionStrengthening.declare_parameters (⟨[]⟩ : ParameterHandler ℝ)).entries
      = [⟨"A1", 1085.7, ⟨none, none⟩⟩, ⟨"A2", 1.329e-7, ⟨none, none⟩⟩,
         ⟨"A3", -5.1e-18, ⟨none, none⟩⟩, ⟨"B1", 1475.0, ⟨none, none⟩⟩,
         ⟨"B2", 8.0e-8, ⟨none, none⟩⟩, ⟨"B3", -3.2e-18, ⟨none, none⟩⟩,
         ⟨"C1", 1780.0, ⟨none, none⟩⟩, ⟨"C2", 4.50e-8, ⟨none, none⟩⟩,
         ⟨"C3", -2.0e-18, ⟨none, none⟩⟩, ⟨"r1", 0.5, ⟨none, none⟩⟩,
         ⟨"r2", 8e-11, ⟨none, none⟩⟩, ⟨"beta", 1.5, ⟨none, none⟩⟩,
         ⟨"Mass fraction cpx", 0.15, ⟨none, none⟩⟩,
         ⟨"Exponential depletion strengthening factor", 0.0, ⟨some 0, none⟩⟩,
         ⟨"Maximum Depletion viscosity change", 1.0e3, ⟨some 0, none⟩⟩] := by
  simp [DepletionStrengthening.declare_parameters, ParameterHandler.declare_entry]

theorem set_entries_isSome (key : String) (v : ℝ) (es : List (ParameterEntry ℝ)) :
    (ParameterHandler.set_entries key v es).isSome
      = ParameterHandler.accepts_entries key v es := by
  induction es with
  | nil => rfl
  | cons e rest ih =>
    simp only [ParameterHandler.set_entries, ParameterHandler.accepts_entries]
    by_cases hk : e.key = key
    · simp only [hk, if_true]
      cases e.pattern.match_value v <;> simp
    · simp only [hk, if_false, Option.isSome_map']
      exact ih

theorem set_entries_accepts (key : String) (v : ℝ) (key₀ : String) (v₀ : ℝ)
    (es es₁ : List (ParameterEntry ℝ))
    (h : ParameterHandler.set_entries key₀ v₀ es = some es₁) :
    ParameterHandler.accepts_entries key v es₁
      = ParameterHandler.accepts_entries key v es := by
  induction es generalizing es₁ with
  | nil => simp [ParameterHandler.set_entries] at h
  | cons e rest ih =>
    simp only [ParameterHandler.set_entries] at h
    by_cases hk : e.key = key₀
    · simp only [hk, if_true] at h
      by_cases hm : e.pattern.match_value v₀ = true
      · simp only [hm, if_true, Option.some.injEq] at h
        subst h
        simp [ParameterHandler.accepts_entries, hk]
      · simp [hm] at h
    · simp only [hk, if_false, Option.map_eq_some'] at h
      obtain ⟨rest₁, hrest, rfl⟩ := h
      simp only [ParameterHandler.accepts_entries]
      rw [ih rest₁ hrest]

theorem parse_input_rejects (key : String) (v : ℝ) (input : List (String × ℝ))
    (prm : ParameterHandler ℝ) (hmem : (key, v) ∈ input)
    (hrej : ParameterHandler.accepts_entries key v prm.entries = false) :
    prm.parse_input input = none := by
  induction input generalizing prm with
  | nil => simp at hmem
  | cons kv rest ih =>
    simp only [ParameterHandler.parse_input, List.foldlM_cons]
    cases hset : ParameterHandler.set_entries kv.1 kv.2 prm.entries with
    | none => simp [ParameterHandler.set_value, hset]
    | some es₁ =>
      have hne : kv ≠ (key, v) := by
        rintro rfl
        have := set_entries_isSome key v prm.entries
        rw [hset, hrej] at this
        simp at this
      have hmem₁ : (key, v) ∈ rest := by
        rcases List.mem_cons.mp hmem with h | h
        · exact absurd h.symm hne
        · exact h
      have hrej₁ : ParameterHandler.accepts_entries key v
          (ParameterHandler.mk es₁).entries = false := by
        rw [← hrej]
        exact set_entries_accepts key v kv.1 kv.2 prm.entries es₁ hset
      have := ih ⟨es₁⟩ hmem₁ hrej₁
      simp only [ParameterHandler.parse_input] at this
      simp only [ParameterHandler.set_value, hset, Option.map_some', Option.bind_eq_bind,
        Option.some_bind]
      exact this

theorem parse_input_accepts (key : String) (v : ℝ) (input : List (String × ℝ))
    (prm prm₁ : ParameterHandler ℝ) (h : prm.parse_input input = some prm₁) :
    ParameterHandler.accepts_entries key v prm₁.entries
      = ParameterHandler.accepts_entries key v prm.entries := by
  induction input generalizing prm with
  | nil =>
    simp only [ParameterHandler.parse_input, List.foldlM_nil] at h
    cases h; rfl
  | cons kv rest ih =>
    simp only [ParameterHandler.parse_input, List.foldlM_cons] at h
    cases hset : ParameterHandler.set_entries kv.1 kv.2 prm.entries with
    | none => simp [ParameterHandler.set_value, hset] at h
    | some es₁ =>
      simp only [ParameterHandler.set_value, hset, Option.map_some', Option.bind_eq_bind,
        Option.some_bind] at h
      rw [ih ⟨es₁⟩ h]
      exact set_entries_accepts key v kv.1 kv.2 prm.entries es₁ hset

theorem set_entries_valid (key : String) (v : ℝ) (es es₁ : List (ParameterEntry ℝ))
    (hvalid : ∀ e ∈ es, e.pattern.match_value e.value = true)
    (h : ParameterHandler.set_entries key v es = some es₁) :
    ∀ e ∈ es₁, e.pattern.match_value e.value = true := by
  induction es generalizing es₁ with
  | nil => simp [ParameterHandler.set_entries] at h
  | cons e₀ rest ih =>
    simp only [ParameterHandler.set_entries] at h
    by_cases hk : e₀.key = key
    · simp only [hk, if_true] at h
      by_cases hm : e₀.pattern.match_value v = true
      · simp only [hm, if_true, Option.some.injEq] at h
        subst h
        intro e he
        rcases List.mem_cons.mp he with rfl | he
        · exact hm
        · exact hvalid e (List.mem_cons_of_mem _ he)
      · simp [hm] at h
    · simp only [hk, if_false, Option.map_eq_some'] at h
      obtain ⟨rest₁, hrest, rfl⟩ := h
      intro e he
      rcases List.mem_cons.mp he with rfl | he
      · exact hvalid _ (List.mem_cons_self _ _)
      · exact ih rest₁ (fun e he => hvalid e (List.mem_cons_of_mem _ he)) hrest e he

theorem parse_input_valid (input : List (String × ℝ)) (prm prm₁ : ParameterHandler ℝ)
    (hvalid : ∀ e ∈ prm.entries, e.pattern.match_value e.value = true)
    (h : prm.parse_input input = some prm₁) :
    ∀ e ∈ prm₁.entries, e.pattern.match_value e.value = true := by
  induction input generalizing prm with
  | nil =>
    simp only [ParameterHandler.parse_input, List.foldlM_nil] at h
    cases h; exact hvalid
  | cons kv rest ih =>
    simp only [ParameterHandler.parse_input, List.foldlM_cons] at h
    cases hset : ParameterHandler.set_entries kv.1 kv.2 prm.entries with
    | none => simp [ParameterHandler.set_value, hset] at h
    | some es₁ =>
      simp only [ParameterHandler.set_value, hset, Option.map_some', Option.bind_eq_bind,
        Option.some_bind] at h
      exact ih ⟨es₁⟩ (set_entries_valid kv.1 kv.2 prm.entries es₁ hvalid hset) h

theorem get_double_accepts (key : String) (v : ℝ) (prm : ParameterHandler ℝ)
    (hvalid : ∀ e ∈ prm.entries, e.pattern.match_value e.value = true)
    (h : prm.get_double key = some v) :
    ParameterHandler.accepts_entries key v prm.entries = true := by
  obtain ⟨es⟩ := prm
  simp only [ParameterHandler.get_double] at h
  simp only at hvalid
  induction es with
  | nil => simp at h
  | cons e rest ih =>
    simp only [ParameterHandler.accepts_entries]
    by_cases hk : e.key = key
    · simp only [hk, if_true]
      simp only [List.find?_cons, hk, beq_self_eq_true, Option.map_some',
        Option.some.injEq] at h
      rw [← h]
      exact hvalid e (List.mem_cons_self _ _)
    · simp only [hk, if_false]
      have hb : (e.key == key) = false := by simpa using hk
      simp only [List.find?_cons, hb] at h
      exact ih (fun e he => hvalid e (List.mem_cons_of_mem _ he)) h

theorem declare_parameters_valid :
    ∀ e ∈ (DepletionStrengthening.declare_parameters (⟨[]⟩ : ParameterHandler ℝ)).entries,
      e.pattern.match_value e.value = true := by
  rw [declare_parameters_entries]
  intro e he
  simp only [List.mem_cons, List.mem_singleton, List.not_mem_nil, or_false] at he
  rcases he with h | h | h | h | h | h | h | h | h | h | h | h | h | h | h <;>
    subst h <;> simp [Patterns.Double.match_value] <;> norm_num

theorem accepts_alpha_depletion (v : ℝ) :
    ParameterHandler.accepts_entries "Exponential depletion strengthening factor" v
      (DepletionStrengthening.declare_parameters (⟨[]⟩ : ParameterHandler ℝ)).entries
      = decide (0 ≤ v) := by
  rw [declare_parameters_entries]
  simp [ParameterHandler.accepts_entries, Patterns.Double.match_value]

theorem accepts_delta_eta_depletion_max (v : ℝ) :
    ParameterHandler.accepts_entries "Maximum Depletion viscosity change" v
      (DepletionStrengthening.declare_parameters (⟨[]⟩ : ParameterHandler ℝ)).entries
      = decide (0 ≤ v) := by
  rw [declare_parameters_entries]
  simp [ParameterHandler.accepts_entries, Patterns.Double.match_value]

theorem get_double_cons (e : ParameterEntry ℝ) (rest : List (ParameterEntry ℝ))
    (key : String) :
    ParameterHandler.get_double ⟨e :: rest⟩ key
      = if e.key = key then some e.value else ParameterHandler.get_double ⟨rest⟩ key := by
  simp only [ParameterHandler.get_double, List.find?_cons]
  by_cases hk : e.key = key
  · simp [hk]
  · have hb : (e.key == key) = false := by simpa using hk
    simp [hk, hb]

theorem parse_parameters_some (prm : ParameterHandler ℝ) (p : DepletionStrengthening ℝ)
    (h : DiffusionCreep.parse_parameters prm = some p) :
    prm.get_double "Exponential depletion strengthening factor" = some p.alpha_depletion
    ∧ prm.get_double "Maximum Depletion viscosity change"
        = some p.delta_eta_depletion_max := by
  unfold DiffusionCreep.parse_parameters at h
  repeat' split at h
  all_goals first
    | (simp only [Option.pure_def, Option.some.injEq] at h; subst h; exact ⟨by assumption, by assumption⟩)
    | simp at h

theorem configure_alpha_depletion (v : ℝ) (hv : 0 ≤ v) :
    DepletionStrengthening.configure [("Exponential depletion strengthening factor", v)]
      = some ⟨1085.7, 1.329e-7, -5.1e-18, 1475.0, 8.0e-8, -3.2e-18, 1780.0, 4.50e-8,
          -2.0e-18, 0.5, 8e-11, 1.5, 0.15, v, 1.0e3⟩ := by
  simp only [DepletionStrengthening.configure, ParameterHandler.parse_input,
    ParameterHandler.set_value, declare_parameters_entries, List.foldlM_cons,
    List.foldlM_nil]
  simp only [ParameterHandler.set_entries, String.reduceEq, if_false, if_true,
    Patterns.Double.match_value, Option.all_some, Option.all_none, hv, decide_True,
    Bool.and_self, Option.map_some', Option.some_bind, Option.bind_eq_bind,
    DiffusionCreep.parse_parameters, get_double_cons, Option.pure_def]

theorem configure_delta_eta_depletion_max (v : ℝ) (hv : 0 ≤ v) :
    DepletionStrengthening.configure [("Maximum Depletion viscosity change", v)]
      = some ⟨1085.7, 1.329e-7, -5.1e-18, 1475.0, 8.0e-8, -3.2e-18, 1780.0, 4.50e-8,
          -2.0e-18, 0.5, 8e-11, 1.5, 0.15, 0.0, v⟩ := by
  simp only [DepletionStrengthening.configure, ParameterHandler.parse_input,
    ParameterHandler.set_value, declare_parameters_entries, List.foldlM_cons,
    List.foldlM_nil]
  simp only [ParameterHandler.set_entries, String.reduceEq, if_false, if_true,
    Patterns.Double.match_value, Option.all_some, Option.all_none, hv, decide_True,
    Bool.and_self, Option.map_some', Option.some_bind, Option.bind_eq_bind,
    DiffusionCreep.parse_parameters, get_double_cons, Option.pure_def]

theorem configure_some (input : List (String × ℝ)) (p : DepletionStrengthening ℝ)
    (h : DepletionStrengthening.configure input = some p) :
    0 ≤ p.alpha_depletion ∧ 0 ≤ p.delta_eta_depletion_max := by
  simp only [DepletionStrengthening.configure, Option.bind_eq_some] at h
  obtain ⟨prm, hprm, hp⟩ := h
  have hvalid := parse_input_valid input _ prm declare_parameters_valid hprm
  obtain ⟨ha, hc⟩ := parse_parameters_some prm p hp
  have ha₁ := get_double_accepts _ _ prm hvalid ha
  have hc₁ := get_double_accepts _ _ prm hvalid hc
  rw [parse_input_accepts _ _ input _ prm hprm] at ha₁ hc₁
  rw [accepts_alpha_depletion] at ha₁
  rw [accepts_delta_eta_depletion_max] at hc₁
  exact ⟨of_decide_eq_true ha₁, of_decide_eq_true hc₁⟩

theorem configure_rejects (key : String) (v : ℝ) (input : List (String × ℝ))
    (hmem : (key, v) ∈ input)
    (hrej : ParameterHandler.accepts_entries key v
      (DepletionStrengthening.declare_parameters (⟨[]⟩ : ParameterHandler ℝ)).entries
        = false) :
    DepletionStrengthening.configure input = none := by
  simp only [DepletionStrengthening.configure,
    parse_input_rejects key v input _ hmem hrej, Option.none_bind]

/-- C7 (as stated, refuted): the value 1/2, which is less than 1, is accepted
for "Maximum Depletion viscosity change" and becomes
`delta_eta_depletion_max`. -/
theorem C7_counterexample :
    (1/2 : ℝ) < 1
    ∧ ∃ p : DepletionStrengthening ℝ,
        DepletionStrengthening.configure
          [("Maximum Depletion viscosity change", (1/2 : ℝ))] = some p
        ∧ p.delta_eta_depletion_max = 1/2 :=
  ⟨by norm_num, _, configure_delta_eta_depletion_max (1/2) (by norm_num), rfl⟩

/-- C7 (amended): configuration rejects every value of "Maximum Depletion
viscosity change" that is less than 0, in any input; it accepts every value
`≥ 0`; and every parameter set that configuration produces has
`delta_eta_depletion_max ≥ 0`. -/
theorem C7_delta_eta_depletion_max_validation :
    (∀ (input : List (String × ℝ)) (v : ℝ),
      ("Maximum Depletion viscosity change", v) ∈ input → v < 0 →
      DepletionStrengthening.configure input = none)
    ∧ (∀ v : ℝ, 0 ≤ v →
      DepletionStrengthening.configure [("Maximum Depletion viscosity change", v)]
        = some ⟨1085.7, 1.329e-7, -5.1e-18, 1475.0, 8.0e-8, -3.2e-18, 1780.0, 4.50e-8,
            -2.0e-18, 0.5, 8e-11, 1.5, 0.15, 0.0, v⟩)
    ∧ (∀ (input : List (String × ℝ)) (p : DepletionStrengthening ℝ),
      DepletionStrengthening.configure input = some p → 0 ≤ p.delta_eta_depletion_max) := by
  refine ⟨fun input v hmem hv => ?_, configure_delta_eta_depletion_max,
    fun input p h => (configure_some input p h).2⟩
  apply configure_rejects _ v input hmem
  rw [accepts_delta_eta_depletion_max]
  exact decide_eq_false (not_le.mpr hv)

theorem C7_delta_eta_depletion_max_validation_witness :
    DepletionStrengthening.configure
        [("A1", (1000 : ℝ)), ("Maximum Depletion viscosity change", -1)] = none
    ∧ DepletionStrengthening.configure [("Maximum Depletion viscosity change", (1/4 : ℝ))]
        = some ⟨1085.7, 1.329e-7, -5.1e-18, 1475.0, 8.0e-8, -3.2e-18, 1780.0, 4.50e-8,
            -2.0e-18, 0.5, 8e-11, 1.5, 0.15, 0.0, 1/4⟩ :=
  ⟨C7_delta_eta_depletion_max_validation.1 _ (-1) (by simp) (by norm_num),
   C7_delta_eta_depletion_max_validation.2.1 (1/4) (by norm_num)⟩

/-- C8: configuration rejects every negative value of "Exponential depletion
strengthening factor", in any input, and accepts every value `≥ 0`, which
becomes `alpha_depletion`; every parameter set that configuration produces has
`alpha_depletion ≥ 0`. -/
theorem C8_alpha_depletion_validation :
    (∀ (input : List (String × ℝ)) (v : ℝ),
      ("Exponential depletion strengthening factor", v) ∈ input → v < 0 →
      DepletionStrengthening.configure input = none)
    ∧ (∀ v : ℝ, 0 ≤ v →
      DepletionStrengthening.configure
          [("Exponential depletion strengthening factor", v)]
        = some ⟨1085.7, 1.329e-7, -5.1e-18, 1475.0, 8.0e-8, -3.2e-18, 1780.0, 4.50e-8,
            -2.0e-18, 0.5, 8e-11, 1.5, 0.15, v, 1.0e3⟩)
    ∧ (∀ (input : List (String × ℝ)) (p : DepletionStrengthening ℝ),
      DepletionStrengthening.configure input = some p → 0 ≤ p.alpha_depletion) := by
  refine ⟨fun input v hmem hv => ?_, configure_alpha_depletion,
    fun input p h => (configure_some input p h).1⟩
  apply configure_rejects _ v input hmem
  rw [accepts_alpha_depletion]
  exact decide_eq_false (not_le.mpr hv)

theorem C8_alpha_depletion_validation_witness :
    DepletionStrengthening.configure
        [("beta", (2 : ℝ)), ("Exponential depletion strengthening factor", -1/2)] = none
    ∧ DepletionStrengthening.configure
          [("Exponential depletion strengthening factor", (7 : ℝ))]
        = some ⟨1085.7, 1.329e-7, -5.1e-18, 1475.0, 8.0e-8, -3.2e-18, 1780.0, 4.50e-8,
            -2.0e-18, 0.5, 8e-11, 1.5, 0.15, 7, 1.0e3⟩ :=
  ⟨C8_alpha_depletion_validation.1 _ (-1/2) (by simp) (by norm_num),
   C8_alpha_depletion_validation.2.1 7 (by norm_num)⟩

theorem average_heat_production_take (volume_fractions heating_values : List ℝ)
    (hlen : volume_fractions.length ≤ heating_values.length) (n : Nat)
    (hn : n ≤ volume_fractions.length) :
    (List.range n).foldlM
      (fun (acc : ℝ) c => do
        let vf ← volume_fractions[c]?
        let hv ← heating_values[c]?
        pure (acc + vf * hv)) 0
      = some ((List.zipWith (· * ·) volume_fractions heating_values).take n).sum := by
  induction n with
  | zero => simp
  | succ n ih =>
    have hn₁ : n < volume_fractions.length := hn
    have hn₂ : n < heating_values.length := lt_of_lt_of_le hn₁ hlen
    have hz : n < (List.zipWith (· * ·) volume_fractions heating_values).length := by
      simp [hn₁, hn₂]
    rw [List.range_succ, List.foldlM_append, ih (Nat.le_of_lt hn₁)]
    simp only [Option.bind_eq_bind, Option.some_bind, List.foldlM_cons, List.foldlM_nil,
      List.getElem?_eq_getElem hn₁, List.getElem?_eq_getElem hn₂, Option.pure_def]
    rw [List.sum_take_succ _ n hz, List.getElem_zipWith]

theorem average_heat_production_eq (volume_fractions heating_values : List ℝ)
    (hlen : volume_fractions.length ≤ heating_values.length) :
    CompositionalHeating.average_heat_production volume_fractions heating_values
      = some (List.zipWith (· * ·) volume_fractions heating_values).sum := by
  unfold CompositionalHeating.average_heat_production
  rw [average_heat_production_take volume_fractions heating_values hlen _ le_rfl]
  congr 2
  apply List.take_of_length_le
  simp [hlen]

theorem assign_at_append {β : Type} (done : List β) (v : List β) (k : Nat) (x : β)
    (hdone : done.length = k) (hk : k < v.length) :
    assign_at (done ++ v.drop k) k x = some ((done ++ [x]) ++ v.drop (k + 1)) := by
  have hdrop : v.drop k = v[k] :: v.drop (k + 1) := List.drop_eq_getElem_cons hk
  have hlt : k < (done ++ v.drop k).length := by
    simp only [List.length_append, List.length_drop, hdone]; omega
  subst hdone
  unfold assign_at
  rw [if_pos hlt]
  simp only [List.set_append_right _ _ (le_refl _), Nat.sub_self, List.append_assoc,
    List.singleton_append]
  rw [hdrop]
  rfl

theorem evaluate_take (compute_volume_fractions : List ℝ → List Bool → List ℝ)
    (self : CompositionalHeating ℝ) (inputs : MaterialModel.MaterialModelInputs ℝ)
    (outputs : HeatingModelOutputs ℝ)
    (hlhs : outputs.heating_source_terms.length ≤ outputs.lhs_latent_heat_terms.length)
    (hvf : ∀ (q : Nat) (hq : q < inputs.composition.length),
      q < outputs.heating_source_terms.length →
      (compute_volume_fractions inputs.composition[q]
        self.fields_used_in_heat_production_averaging).length
        ≤ self.heating_values.length)
    (k : Nat) (hk : k ≤ outputs.heating_source_terms.length)
    (hkc : k ≤ inputs.composition.length) :
    (List.range k).foldlM
      (fun (out : HeatingModelOutputs ℝ) q => do
        let composition_q ← inputs.composition[q]?
        let volume_fractions :=
          compute_volume_fractions composition_q
            self.fields_used_in_heat_production_averaging
        let compositional_heat_production ←
          CompositionalHeating.average_heat_production volume_fractions self.heating_values
        let heating_source_terms ←
          assign_at out.heating_source_terms q compositional_heat_production
        let lhs_latent_heat_terms ← assign_at out.lhs_latent_heat_terms q 0
        pure ⟨heating_source_terms, lhs_latent_heat_terms⟩)
      outputs
      = some
          ⟨(inputs.composition.take k).map
              (fun composition_q =>
                (List.zipWith (· * ·)
                  (compute_volume_fractions composition_q
                    self.fields_used_in_heat_production_averaging)
                  self.heating_values).sum)
            ++ outputs.heating_source_terms.drop k,
           List.replicate k 0 ++ outputs.lhs_latent_heat_terms.drop k⟩ := by
  induction k with
  | zero => simp
  | succ k ih =>
    have hk₁ : k < outputs.heating_source_terms.length := hk
    have hk₂ : k < outputs.lhs_latent_heat_terms.length := lt_of_lt_of_le hk₁ hlhs
    have hk₃ : k < inputs.composition.length := hkc
    rw [List.range_succ, List.foldlM_append, ih (Nat.le_of_lt hk₁) (Nat.le_of_lt hk₃)]
    simp only [Option.bind_eq_bind, Option.some_bind, List.foldlM_cons, List.foldlM_nil,
      List.getElem?_eq_getElem hk₃, Option.pure_def]
    rw [average_heat_production_eq _ _ (hvf k hk₃ hk₁)]
    simp only [Option.some_bind]
    rw [assign_at_append _ _ k _ (by simp [Nat.le_of_lt hk₃]) hk₁,
      assign_at_append _ _ k _ (by simp) hk₂]
    simp only [Option.some_bind, Option.some.injEq, HeatingModelOutputs.mk.injEq]
    constructor
    · rw [List.take_succ, List.getElem?_eq_getElem hk₃]
      simp only [Option.toList_some, List.map_append, List.map_cons, List.map_nil]
    · rw [List.replicate_succ']

theorem evaluate_eq (compute_volume_fractions : List ℝ → List Bool → List ℝ)
    (self : CompositionalHeating ℝ) (inputs : MaterialModel.MaterialModelInputs ℝ)
    (outputs : HeatingModelOutputs ℝ)
    (hcomp : outputs.heating_source_terms.length ≤ inputs.composition.length)
    (hlhs : outputs.heating_source_terms.length ≤ outputs.lhs_latent_heat_terms.length)
    (hvf : ∀ (q : Nat) (hq : q < inputs.composition.length),
      q < outputs.heating_source_terms.length →
      (compute_volume_fractions inputs.composition[q]
        self.fields_used_in_heat_production_averaging).length
        ≤ self.heating_values.length) :
    self.evaluate compute_volume_fractions inputs outputs
      = some
          ⟨(inputs.composition.take outputs.heating_source_terms.length).map
              (fun composition_q =>
                (List.zipWith (· * ·)
                  (compute_volume_fractions composition_q
                    self.fields_used_in_heat_production_averaging)
                  self.heating_values).sum),
           List.replicate outputs.heating_source_terms.length 0
             ++ outputs.lhs_latent_heat_terms.drop outputs.heating_source_terms.length⟩ := by
  unfold CompositionalHeating.evaluate
  rw [evaluate_take compute_volume_fractions self inputs outputs hlhs hvf _ le_rfl hcomp]
  simp

/-- C9: when every index that `evaluate` uses is in bounds, `evaluate` returns
and, for every evaluation point `q`, `heating_source_terms[q]` is the sum over
`c` of `volume_fractions[c] * heating_values[c]`, with `volume_fractions` the
result of `compute_volume_fractions` on `composition[q]` and the averaging
mask; for the volume fractions [0.5, 0.3, 0.2] and the heating values
[0, 1e-6, 2e-6] it is 7e-7. -/
theorem C9_evaluate_heating_source_terms
    (compute_volume_fractions : List ℝ → List Bool → List ℝ)
    (self : CompositionalHeating ℝ) (inputs : MaterialModel.MaterialModelInputs ℝ)
    (outputs : HeatingModelOutputs ℝ)
    (hcomp : outputs.heating_source_terms.length ≤ inputs.composition.length)
    (hlhs : outputs.heating_source_terms.length ≤ outputs.lhs_latent_heat_terms.length)
    (hvf : ∀ (q : Nat) (hq : q < inputs.composition.length),
      q < outputs.heating_source_terms.length →
      (compute_volume_fractions inputs.composition[q]
        self.fields_used_in_heat_production_averaging).length
        ≤ self.heating_values.length) :
    ∃ out, self.evaluate compute_volume_fractions inputs outputs = some out
      ∧ ∀ q, q < outputs.heating_source_terms.length →
        ∃ composition_q, inputs.composition[q]? = some composition_q
          ∧ out.heating_source_terms[q]?
              = some (List.zipWith (· * ·)
                  (compute_volume_fractions composition_q
                    self.fields_used_in_heat_production_averaging)
                  self.heating_values).sum
          ∧ (compute_volume_fractions composition_q
                self.fields_used_in_heat_production_averaging = [0.5, 0.3, 0.2] →
              self.heating_values = [0, 1e-6, 2e-6] →
              out.heating_source_terms[q]? = some 7e-7) := by
  refine ⟨_, evaluate_eq compute_volume_fractions self inputs outputs hcomp hlhs hvf, ?_⟩
  intro q hq
  have hqc : q < inputs.composition.length := lt_of_lt_of_le hq hcomp
  have hval : ((inputs.composition.take outputs.heating_source_terms.length).map
      (fun composition_q =>
        (List.zipWith (· * ·)
          (compute_volume_fractions composition_q
            self.fields_used_in_heat_production_averaging)
          self.heating_values).sum))[q]?
      = some (List.zipWith (· * ·)
          (compute_volume_fractions inputs.composition[q]
            self.fields_used_in_heat_production_averaging)
          self.heating_values).sum := by
    rw [List.getElem?_map, List.getElem?_take_of_lt hq, List.getElem?_eq_getElem hqc]
    rfl
  refine ⟨inputs.composition[q], List.getElem?_eq_getElem hqc, hval, ?_⟩
  intro hvol hheat
  rw [hval, hvol, hheat]
  norm_num

theorem C9_evaluate_heating_source_terms_witness :
    ∃ out, (CompositionalHeating.mk [true, true, true] [(0 : ℝ), 1e-6, 2e-6]).evaluate
        (fun _ _ => [0.5, 0.3, 0.2]) ⟨[[0.3, 0.2]]⟩ ⟨[5], [6, 7]⟩ = some out
      ∧ out.heating_source_terms[0]? = some (7e-7 : ℝ) := by
  obtain ⟨out, hout, hq⟩ := C9_evaluate_heating_source_terms
    (fun _ _ => [0.5, 0.3, 0.2])
    (CompositionalHeating.mk [true, true, true] [(0 : ℝ), 1e-6, 2e-6])
    ⟨[[0.3, 0.2]]⟩ ⟨[5], [6, 7]⟩ (by simp) (by simp) (by simp)
  obtain ⟨composition_q, _, _, hex⟩ := hq 0 (by simp)
  exact ⟨out, hout, hex rfl rfl⟩

/-- C10: when every index that `evaluate` uses is in bounds, `evaluate` returns
and `lhs_latent_heat_terms[q]` is exactly 0 for every evaluation point `q`,
whatever the composition, the mask and the heating values are. -/
theorem C10_evaluate_lhs_latent_heat_terms
    (compute_volume_fractions : List ℝ → List Bool → List ℝ)
    (self : CompositionalHeating ℝ) (inputs : MaterialModel.MaterialModelInputs ℝ)
    (outputs : HeatingModelOutputs ℝ)
    (hcomp : outputs.heating_source_terms.length ≤ inputs.composition.length)
    (hlhs : outputs.heating_source_terms.length ≤ outputs.lhs_latent_heat_terms.length)
    (hvf : ∀ (q : Nat) (hq : q < inputs.composition.length),
      q < outputs.heating_source_terms.length →
      (compute_volume_fractions inputs.composition[q]
        self.fields_used_in_heat_production_averaging).length
        ≤ self.heating_values.length) :
    ∃ out, self.evaluate compute_volume_fractions inputs outputs = some out
      ∧ ∀ q, q < outputs.heating_source_terms.length →
        out.lhs_latent_heat_terms[q]? = some 0 := by
  refine ⟨_, evaluate_eq compute_volume_fractions self inputs outputs hcomp hlhs hvf, ?_⟩
  intro q hq
  simp only
  rw [List.getElem?_append_left (by simpa using hq)]
  simp [hq]

theorem C10_evaluate_lhs_latent_heat_terms_witness :
    ∃ out, (CompositionalHeating.mk [true, false, true] [(3 : ℝ), 1, 4]).evaluate
        (fun composition _ => 1 :: composition) ⟨[[1, 2], [-5, 8]]⟩ ⟨[9, 9], [6, 7, 8]⟩
          = some out
      ∧ ∀ q, q < 2 → out.lhs_latent_heat_terms[q]? = some 0 :=
  C10_evaluate_lhs_latent_heat_terms (fun composition _ => 1 :: composition)
    (CompositionalHeating.mk [true, false, true] [(3 : ℝ), 1, 4])
    ⟨[[1, 2], [-5, 8]]⟩ ⟨[9, 9], [6, 7, 8]⟩ (by simp) (by simp)
    (by
      intro q hq hq₁
      have hq₂ : q < 2 := hq₁
      interval_cases q <;> simp)

theorem possibly_extend_from_1_to_N_one {β : Type} (v : β) (N : Nat) :
    Utilities.possibly_extend_from_1_to_N [v] N = some (List.replicate N v) := rfl

theorem possibly_extend_from_1_to_N_same {β : Type} (values : List β) (N : Nat)
    (h : values.length = N) :
    Utilities.possibly_extend_from_1_to_N values N = some values := by
  unfold Utilities.possibly_extend_from_1_to_N
  split
  · rename_i v
    simp only [List.length_singleton] at h
    subst h
    rfl
  · rw [if_pos h]

theorem possibly_extend_from_1_to_N_none {β : Type} (values : List β) (N : Nat)
    (h₁ : values.length ≠ 1) (hN : values.length ≠ N) :
    Utilities.possibly_extend_from_1_to_N values N = none := by
  unfold Utilities.possibly_extend_from_1_to_N
  split
  · simp at h₁
  · rw [if_neg hN]

theorem possibly_extend_from_1_to_N_length {β : Type} (values extended : List β) (N : Nat)
    (h : Utilities.possibly_extend_from_1_to_N values N = some extended) :
    extended.length = N ∧ (values.length = 1 ∨ values.length = N) := by
  unfold Utilities.possibly_extend_from_1_to_N at h
  split at h
  · simp only [Option.some.injEq] at h
    subst h
    simp
  · split at h
    · rename_i hlen
      simp only [Option.some.injEq] at h
      subst h
      exact ⟨hlen, Or.inr hlen⟩
    · simp at h

theorem mask_loop_take (used_fields : List Int) (mask : List Bool)
    (hlen : mask.length = used_fields.length) (k : Nat) (hk : k ≤ used_fields.length) :
    (List.range k).foldlM
      (fun (m : List Bool) i => do
        let used ← used_fields[i]?
        assign_at m i (used != 0))
      mask
      = some ((used_fields.take k).map (fun used => used != 0) ++ mask.drop k) := by
  induction k with
  | zero => simp
  | succ k ih =>
    have hk₁ : k < used_fields.length := hk
    have hk₂ : k < mask.length := by rw [hlen]; exact hk₁
    rw [List.range_succ, List.foldlM_append, ih (Nat.le_of_lt hk₁)]
    simp only [Option.bind_eq_bind, Option.some_bind, List.foldlM_cons, List.foldlM_nil,
      List.getElem?_eq_getElem hk₁]
    rw [assign_at_append _ _ k _ (by simp [Nat.le_of_lt hk₁]) hk₂]
    simp only [Option.some_bind, Option.pure_def, Option.some.injEq]
    rw [List.take_succ, List.getElem?_eq_getElem hk₁]
    simp only [Option.toList_some, List.map_append, List.map_cons, List.map_nil]

theorem resize_length (v : List Bool) (n : Nat) : (resize v n).length = n := by
  simp only [resize, List.length_append, List.length_take, List.length_replicate]
  omega

theorem parse_parameters_eq (self : CompositionalHeating ℝ) (intro : Introspection)
    (used_fields_entry used_fields : List Int) (heating_values_entry heating_values : List ℝ)
    (hused : Utilities.possibly_extend_from_1_to_N used_fields_entry
      (intro.n_compositional_fields + 1) = some used_fields)
    (hheat : Utilities.possibly_extend_from_1_to_N heating_values_entry
      (intro.n_compositional_fields + 1) = some heating_values) :
    self.parse_parameters intro used_fields_entry heating_values_entry
      = some ⟨used_fields.map (fun used => used != 0), heating_values⟩ := by
  unfold CompositionalHeating.parse_parameters
  have hloop := mask_loop_take used_fields
    (resize self.fields_used_in_heat_production_averaging used_fields.length)
    (resize_length _ _) _ le_rfl
  simp only [Option.bind_eq_bind] at hloop
  simp only [hused, hheat, Option.bind_eq_bind, Option.some_bind, hloop]
  have hdrop : List.drop used_fields.length
      (resize self.fields_used_in_heat_production_averaging used_fields.length) = [] :=
    List.drop_eq_nil_of_le (by rw [resize_length])
  simp [hdrop]

theorem possibly_extend_from_1_to_N_some {β : Type} (values : List β) (N : Nat)
    (h : values.length = 1 ∨ values.length = N) :
    ∃ extended, Utilities.possibly_extend_from_1_to_N values N = some extended
      ∧ (∀ v, values = [v] → extended = List.replicate N v)
      ∧ (values.length = N → extended = values) := by
  by_cases hone : ∃ v, values = [v]
  · obtain ⟨v, rfl⟩ := hone
    refine ⟨_, possibly_extend_from_1_to_N_one v N, ?_, ?_⟩
    · intro w hw
      simp only [List.cons.injEq, and_true] at hw
      rw [hw]
    · intro hN
      simp only [List.length_singleton] at hN
      subst hN
      rfl
  · have hN : values.length = N := by
      rcases h with h | h
      · exact absurd (List.length_eq_one.mp h) hone
      · exact h
    refine ⟨_, possibly_extend_from_1_to_N_same values N hN, ?_, fun _ => rfl⟩
    intro v hv
    exact absurd ⟨v, hv⟩ hone

theorem parse_parameters_none (self : CompositionalHeating ℝ) (intro : Introspection)
    (used_fields_entry : List Int) (heating_values_entry : List ℝ)
    (h : Utilities.possibly_extend_from_1_to_N used_fields_entry
          (intro.n_compositional_fields + 1) = none
      ∨ Utilities.possibly_extend_from_1_to_N heating_values_entry
          (intro.n_compositional_fields + 1) = none) :
    self.parse_parameters intro used_fields_entry heating_values_entry = none := by
  cases hused : Utilities.possibly_extend_from_1_to_N used_fields_entry
      (intro.n_compositional_fields + 1) with
  | none =>
    unfold CompositionalHeating.parse_parameters
    simp only [hused, Option.bind_eq_bind, Option.none_bind]
  | some used_fields =>
    have hheat : Utilities.possibly_extend_from_1_to_N heating_values_entry
        (intro.n_compositional_fields + 1) = none := by
      rcases h with h | h
      · rw [hused] at h; cases h
      · exact h
    have hloop := mask_loop_take used_fields
      (resize self.fields_used_in_heat_production_averaging used_fields.length)
      (resize_length _ _) _ le_rfl
    simp only [Option.bind_eq_bind] at hloop
    unfold CompositionalHeating.parse_parameters
    simp only [hused, hheat, Option.bind_eq_bind, Option.some_bind, hloop,
      Option.none_bind]

theorem parse_parameters_some_iff (self p : CompositionalHeating ℝ) (intro : Introspection)
    (used_fields_entry : List Int) (heating_values_entry : List ℝ)
    (h : self.parse_parameters intro used_fields_entry heating_values_entry = some p) :
    ∃ used_fields,
      Utilities.possibly_extend_from_1_to_N used_fields_entry
        (intro.n_compositional_fields + 1) = some used_fields
      ∧ Utilities.possibly_extend_from_1_to_N heating_values_entry
        (intro.n_compositional_fields + 1) = some p.heating_values
      ∧ p.fields_used_in_heat_production_averaging
        = used_fields.map (fun used => used != 0) := by
  cases hused : Utilities.possibly_extend_from_1_to_N used_fields_entry
      (intro.n_compositional_fields + 1) with
  | none =>
    rw [parse_parameters_none self intro _ _ (Or.inl hused)] at h
    cases h
  | some used_fields =>
    cases hheat : Utilities.possibly_extend_from_1_to_N heating_values_entry
        (intro.n_compositional_fields + 1) with
    | none =>
      rw [parse_parameters_none self intro _ _ (Or.inr hheat)] at h
      cases h
    | some heating_values =>
      rw [parse_parameters_eq self intro _ used_fields _ heating_values hused hheat] at h
      simp only [Option.some.injEq] at h
      subst h
      exact ⟨used_fields, rfl, rfl, rfl⟩

/-- C11: with `N` compositional fields, when each configured list has one entry
or `N+1` entries, `parse_parameters` succeeds; a list of heating values with
the single entry `v` is stored as `N+1` entries equal to `v`, and one with
`N+1` entries is stored unchanged, in order; the same holds for the list of
averaging-mask integers, each integer `u` stored as the boolean `u != 0`. -/
theorem C11_parse_parameters_broadcast (self : CompositionalHeating ℝ)
    (intro : Introspection) (used_fields_entry : List Int)
    (heating_values_entry : List ℝ)
    (hused : used_fields_entry.length = 1
      ∨ used_fields_entry.length = intro.n_compositional_fields + 1)
    (hheat : heating_values_entry.length = 1
      ∨ heating_values_entry.length = intro.n_compositional_fields + 1) :
    ∃ p, self.parse_parameters intro used_fields_entry heating_values_entry = some p
      ∧ (∀ v, heating_values_entry = [v] →
          p.heating_values = List.replicate (intro.n_compositional_fields + 1) v)
      ∧ (heating_values_entry.length = intro.n_compositional_fields + 1 →
          p.heating_values = heating_values_entry)
      ∧ (∀ u, used_fields_entry = [u] →
          p.fields_used_in_heat_production_averaging
            = List.replicate (intro.n_compositional_fields + 1) (u != 0))
      ∧ (used_fields_entry.length = intro.n_compositional_fields + 1 →
          p.fields_used_in_heat_production_averaging
            = used_fields_entry.map (fun used => used != 0)) := by
  obtain ⟨used_fields, hu, hu₁, huN⟩ := possibly_extend_from_1_to_N_some _ _ hused
  obtain ⟨heating_values, hh, hh₁, hhN⟩ := possibly_extend_from_1_to_N_some _ _ hheat
  refine ⟨_, parse_parameters_eq self intro _ used_fields _ heating_values hu hh,
    hh₁, hhN, ?_, ?_⟩
  · intro u hu'
    simp only [hu₁ u hu', List.map_replicate]
  · intro hN
    simp only [huN hN]

theorem C11_parse_parameters_broadcast_witness :
    ∃ p, (CompositionalHeating.mk [] ([] : List ℝ)).parse_parameters
        ⟨["peridotite", "maximum_melt_fraction"]⟩ [1] [2e-6, 0, 1e-6] = some p
      ∧ (∀ v, ([2e-6, 0, 1e-6] : List ℝ) = [v] →
          p.heating_values = List.replicate (2 + 1) v)
      ∧ (([2e-6, 0, 1e-6] : List ℝ).length = 2 + 1 →
          p.heating_values = [2e-6, 0, 1e-6])
      ∧ (∀ u, ([1] : List Int) = [u] →
          p.fields_used_in_heat_production_averaging = List.replicate (2 + 1) (u != 0))
      ∧ (([1] : List Int).length = 2 + 1 →
          p.fields_used_in_heat_production_averaging
            = ([1] : List Int).map (fun used => used != 0)) :=
  C11_parse_parameters_broadcast (CompositionalHeating.mk [] ([] : List ℝ))
    ⟨["peridotite", "maximum_melt_fraction"]⟩ [1] [2e-6, 0, 1e-6]
    (Or.inl rfl) (Or.inr rfl)

/-- C12: with `N` compositional fields, `parse_parameters` fails when the list
of heating values or the list of averaging-mask integers has a length other
than 1 and `N+1`; whenever it succeeds, both stored lists have `N+1` entries
and each configured list had 1 or `N+1` entries. -/
theorem C12_parse_parameters_length_mismatch (self : CompositionalHeating ℝ)
    (intro : Introspection) (used_fields_entry : List Int)
    (heating_values_entry : List ℝ) :
    (((used_fields_entry.length ≠ 1
          ∧ used_fields_entry.length ≠ intro.n_compositional_fields + 1)
        ∨ (heating_values_entry.length ≠ 1
          ∧ heating_values_entry.length ≠ intro.n_compositional_fields + 1)) →
      self.parse_parameters intro used_fields_entry heating_values_entry = none)
    ∧ (∀ p, self.parse_parameters intro used_fields_entry heating_values_entry = some p →
        p.heating_values.length = intro.n_compositional_fields + 1
        ∧ p.fields_used_in_heat_production_averaging.length
            = intro.n_compositional_fields + 1
        ∧ (used_fields_entry.length = 1
            ∨ used_fields_entry.length = intro.n_compositional_fields + 1)
        ∧ (heating_values_entry.length = 1
            ∨ heating_values_entry.length = intro.n_compositional_fields + 1)) := by
  constructor
  · intro h
    apply parse_parameters_none
    rcases h with ⟨h₁, hN⟩ | ⟨h₁, hN⟩
    · exact Or.inl (possibly_extend_from_1_to_N_none _ _ h₁ hN)
    · exact Or.inr (possibly_extend_from_1_to_N_none _ _ h₁ hN)
  · intro p hp
    obtain ⟨used_fields, hu, hh, hmask⟩ :=
      parse_parameters_some_iff self p intro _ _ hp
    obtain ⟨hulen, hucase⟩ := possibly_extend_from_1_to_N_length _ _ _ hu
    obtain ⟨hhlen, hhcase⟩ := possibly_extend_from_1_to_N_length _ _ _ hh
    refine ⟨hhlen, ?_, hucase, hhcase⟩
    rw [hmask, List.length_map, hulen]

theorem C12_parse_parameters_length_mismatch_witness :
    (CompositionalHeating.mk [] ([] : List ℝ)).parse_parameters
        ⟨["peridotite", "maximum_melt_fraction"]⟩ [1, 0] [2e-6, 0, 1e-6] = none
    ∧ (CompositionalHeating.mk [] ([] : List ℝ)).parse_parameters
        ⟨["peridotite", "maximum_melt_fraction"]⟩ [1] [2e-6, 0, 1e-6, 5] = none :=
  ⟨(C12_parse_parameters_length_mismatch (CompositionalHeating.mk [] ([] : List ℝ))
      ⟨["peridotite", "maximum_melt_fraction"]⟩ [1, 0] [2e-6, 0, 1e-6]).1
      (Or.inl ⟨by decide, by decide⟩),
   (C12_parse_parameters_length_mismatch (CompositionalHeating.mk [] ([] : List ℝ))
      ⟨["peridotite", "maximum_melt_fraction"]⟩ [1] [2e-6, 0, 1e-6, 5]).1
      (Or.inr ⟨by decide, by decide⟩)⟩

theorem clipped_nonneg (compositional_fields : List ℝ) (mask : List Bool) :
    ∀ x ∈ List.zipWith (fun x (included : Bool) => if included then max x 0 else 0)
      compositional_fields mask, 0 ≤ x := by
  induction compositional_fields generalizing mask with
  | nil => simp
  | cons c rest ih =>
    cases mask with
    | nil => simp
    | cons m ms =>
      intro x hx
      simp only [List.zipWith_cons_cons, List.mem_cons] at hx
      rcases hx with rfl | hx
      · split
        · exact le_max_right _ _
        · exact le_rfl
      · exact ih ms x hx

theorem sum_eq_zero_of_all_zero (xs : List ℝ)
    (h : xs.all (fun x => decide (x = 0)) = true) : xs.sum = 0 := by
  induction xs with
  | nil => rfl
  | cons x rest ih =>
    simp only [List.all_cons, Bool.and_eq_true, decide_eq_true_eq] at h
    rw [List.sum_cons, h.1, ih h.2, add_zero]

theorem sum_pos_of_not_all_zero (xs : List ℝ) (hnonneg : ∀ x ∈ xs, 0 ≤ x)
    (h : ¬ xs.all (fun x => decide (x = 0)) = true) : 0 < xs.sum := by
  induction xs with
  | nil => simp at h
  | cons x rest ih =>
    have hx : 0 ≤ x := hnonneg x (List.mem_cons_self _ _)
    have hrest : ∀ y ∈ rest, 0 ≤ y := fun y hy => hnonneg y (List.mem_cons_of_mem _ hy)
    have hsum : 0 ≤ rest.sum := List.sum_nonneg hrest
    rw [List.sum_cons]
    by_cases hx0 : x = 0
    · have hrest' : ¬ rest.all (fun x => decide (x = 0)) = true := by
        intro hall
        apply h
        simp only [List.all_cons, Bool.and_eq_true, decide_eq_true_eq]
        exact ⟨hx0, hall⟩
      have := ih hrest hrest'
      linarith
    · have : 0 < x := lt_of_le_of_ne hx (Ne.symm hx0)
      linarith

theorem sum_map_div (xs : List ℝ) (s : ℝ) :
    (xs.map (fun x => x / s)).sum = xs.sum / s := by
  induction xs with
  | nil => simp
  | cons x rest ih => simp only [List.map_cons, List.sum_cons, ih, add_div]

theorem clipped_getElem_zipWith (compositional_fields : List ℝ) (mask : List Bool) (i : Nat)
    (hi : i < compositional_fields.length) (hm : i < mask.length) :
    (List.zipWith (fun x (included : Bool) => if included then max x 0 else 0)
      compositional_fields mask)[i]?
      = some (if mask[i] then max compositional_fields[i] 0 else 0) := by
  rw [List.getElem?_zipWith, List.getElem?_eq_getElem hi, List.getElem?_eq_getElem hm]

theorem compute_volume_fractions_cons (compositional_fields : List ℝ) (background : Bool)
    (mask : List Bool) (hlen : mask.length = compositional_fields.length) :
    MaterialModel.compute_volume_fractions compositional_fields (background :: mask)
      = some
        (if (List.zipWith (fun x (included : Bool) => if included then max x 0 else 0)
            compositional_fields mask).all (fun x => decide (x = 0)) then
          1 :: List.zipWith (fun x (included : Bool) => if included then max x 0 else 0)
            compositional_fields mask
        else
          0 :: (List.zipWith (fun x (included : Bool) => if included then max x 0 else 0)
            compositional_fields mask).map
              (fun x => x /
                (List.zipWith (fun x (included : Bool) => if included then max x 0 else 0)
                  compositional_fields mask).sum)) := by
  have hne : ¬ (background :: mask).length = compositional_fields.length := by
    simp only [List.length_cons, hlen]
    omega
  have heq : (background :: mask).length = compositional_fields.length + 1 := by
    simp only [List.length_cons, hlen]
  unfold MaterialModel.compute_volume_fractions
  rw [if_neg hne, if_pos heq]
  congr 1
  unfold MaterialModel.volume_fractions
  simp only [List.zipWith_cons_cons, max_self, ite_self, List.all_cons, decide_True,
    Bool.true_and, List.sum_cons, zero_add, List.map_cons, zero_div]

theorem compute_volume_fractions_example_normalized :
    MaterialModel.compute_volume_fractions ([0.3, 0.7] : List ℝ) [true, true]
      = some [0.3, 0.7] := by
  unfold MaterialModel.compute_volume_fractions MaterialModel.volume_fractions
  norm_num

theorem compute_volume_fractions_example_clipped :
    MaterialModel.compute_volume_fractions ([-0.1, 0.5] : List ℝ) [true, true]
      = some [0, 1.0] := by
  unfold MaterialModel.compute_volume_fractions MaterialModel.volume_fractions
  norm_num

/-- C13: for a composition vector of `N` fields and a mask of `N+1` booleans,
`compute_volume_fractions` returns `N+1` values, each `≥ 0`, that sum to 1; a
field with a negative raw value and a field that the mask excludes get 0; and
when every included value clips to 0 the background field gets the weight 1
and every field gets 0. -/
theorem C13_compute_volume_fractions (compositional_fields : List ℝ)
    (field_mask : List Bool)
    (hmask : field_mask.length = compositional_fields.length + 1) :
    ∃ volume_fractions,
      MaterialModel.compute_volume_fractions compositional_fields field_mask
        = some volume_fractions
      ∧ volume_fractions.length = compositional_fields.length + 1
      ∧ (∀ v ∈ volume_fractions, 0 ≤ v)
      ∧ volume_fractions.sum = 1
      ∧ (∀ (i : Nat) (hi : i < compositional_fields.length),
          (compositional_fields[i] < 0 ∨ field_mask[i + 1]? = some false) →
          volume_fractions[i + 1]? = some 0)
      ∧ ((∀ (i : Nat) (hi : i < compositional_fields.length),
            field_mask[i + 1]? = some true → compositional_fields[i] ≤ 0) →
          volume_fractions = 1 :: List.replicate compositional_fields.length 0) := by
  obtain ⟨background, mask, rfl⟩ : ∃ b ms, field_mask = b :: ms := by
    cases field_mask with
    | nil => simp at hmask
    | cons b ms => exact ⟨b, ms, rfl⟩
  have hlen : mask.length = compositional_fields.length := by simpa using hmask
  refine ⟨_, compute_volume_fractions_cons compositional_fields background mask hlen, ?_⟩
  generalize hxs : List.zipWith (fun x (included : Bool) => if included then max x 0 else 0)
      compositional_fields mask = xs
  have hxlen : xs.length = compositional_fields.length := by
    rw [← hxs, List.length_zipWith, hlen, min_self]
  have hnonneg : ∀ x ∈ xs, 0 ≤ x := by
    rw [← hxs]; exact clipped_nonneg compositional_fields mask
  have hget : ∀ (i : Nat) (hi : i < compositional_fields.length) (hm : i < mask.length),
      xs[i]? = some (if mask[i] then max compositional_fields[i] 0 else 0) := by
    intro i hi hm
    rw [← hxs]
    exact clipped_getElem_zipWith compositional_fields mask i hi hm
  have hzero : ∀ (i : Nat) (hi : i < compositional_fields.length),
      (compositional_fields[i] < 0 ∨ (background :: mask)[i + 1]? = some false) →
      xs[i]? = some 0 := by
    intro i hi h
    have hm : i < mask.length := by rw [hlen]; exact hi
    rw [hget i hi hm]
    rcases h with h | h
    · rw [max_eq_right (le_of_lt h)]; simp
    · simp only [List.getElem?_cons_succ, List.getElem?_eq_getElem hm,
        Option.some.injEq] at h
      simp [h]
  by_cases hall : xs.all (fun x => decide (x = 0)) = true
  · rw [if_pos hall]
    refine ⟨by simp [hxlen], ?_, ?_, ?_, ?_⟩
    · intro v hv
      rcases List.mem_cons.mp hv with rfl | hv
      · exact zero_le_one
      · exact hnonneg v hv
    · rw [List.sum_cons, sum_eq_zero_of_all_zero xs hall, add_zero]
    · intro i hi h
      rw [List.getElem?_cons_succ]
      exact hzero i hi h
    · intro _
      congr 1
      rw [List.eq_replicate_iff]
      refine ⟨hxlen, fun x hx => ?_⟩
      have := (List.all_eq_true.mp hall) x hx
      simpa using this
  · rw [if_neg hall]
    have hpos : 0 < xs.sum := sum_pos_of_not_all_zero xs hnonneg hall
    refine ⟨by simp [hxlen], ?_, ?_, ?_, ?_⟩
    · intro v hv
      rcases List.mem_cons.mp hv with rfl | hv
      · exact le_rfl
      · obtain ⟨x, hx, rfl⟩ := List.mem_map.mp hv
        exact div_nonneg (hnonneg x hx) (le_of_lt hpos)
    · rw [List.sum_cons, sum_map_div, zero_add, div_self (ne_of_gt hpos)]
    · intro i hi h
      rw [List.getElem?_cons_succ, List.getElem?_map, hzero i hi h]
      simp
    · intro h
      exfalso
      apply hall
      rw [List.all_eq_true]
      intro x hx
      obtain ⟨i, hi, rfl⟩ := List.getElem_of_mem hx
      have hic : i < compositional_fields.length := by rw [← hxlen]; exact hi
      have hm : i < mask.length := by rw [hlen]; exact hic
      have hxi := hget i hic hm
      rw [List.getElem?_eq_getElem hi, Option.some.injEq] at hxi
      rw [hxi]
      by_cases hmi : mask[i] = true
      · have hle := h i hic (by simp [List.getElem?_eq_getElem hm, hmi])
        simp [hmi, max_eq_right hle]
      · simp [hmi]

theorem C13_compute_volume_fractions_witness :
    ∃ volume_fractions,
      MaterialModel.compute_volume_fractions ([-1/10, 1/2, 3/2] : List ℝ)
        [true, true, false, true] = some volume_fractions
      ∧ volume_fractions.length = 3 + 1
      ∧ (∀ v ∈ volume_fractions, 0 ≤ v)
      ∧ volume_fractions.sum = 1 := by
  obtain ⟨volume_fractions, h, hlen, hnonneg, hsum, _⟩ :=
    C13_compute_volume_fractions ([-1/10, 1/2, 3/2] : List ℝ)
      [true, true, false, true] rfl
  exact ⟨volume_fractions, h, hlen, hnonneg, hsum⟩

theorem melt_fraction_below_solidus (pow : ℝ → ℝ → ℝ)
    (post_exhaustion : DepletionStrengthening ℝ → ℝ → ℝ → ℝ)
    (self : DepletionStrengthening ℝ) (temperature pressure : ℝ)
    (composition position : List ℝ) (h : temperature ≤ self.solidus pressure) :
    self.melt_fraction pow post_exhaustion temperature pressure composition position
      = 0 := by
  unfold DepletionStrengthening.melt_fraction
  simp only [if_pos h]

theorem melt_fraction_above_liquidus (pow : ℝ → ℝ → ℝ)
    (post_exhaustion : DepletionStrengthening ℝ → ℝ → ℝ → ℝ)
    (self : DepletionStrengthening ℝ) (temperature pressure : ℝ)
    (composition position : List ℝ) (hs : self.solidus pressure < temperature)
    (h : self.liquidus pressure ≤ temperature) :
    self.melt_fraction pow post_exhaustion temperature pressure composition position
      = 1 := by
  unfold DepletionStrengthening.melt_fraction
  simp only [if_neg (not_le.mpr hs), if_pos h]

theorem configure_default :
    DepletionStrengthening.configure ([] : List (String × ℝ))
      = some ⟨1085.7, 1.329e-7, -5.1e-18, 1475.0, 8.0e-8, -3.2e-18, 1780.0, 4.50e-8,
          -2.0e-18, 0.5, 8e-11, 1.5, 0.15, 0.0, 1.0e3⟩ := by
  simp only [DepletionStrengthening.configure, ParameterHandler.parse_input,
    List.foldlM_nil, Option.pure_def, Option.bind_eq_bind, Option.some_bind]
  have hentries : DepletionStrengthening.declare_parameters (⟨[]⟩ : ParameterHandler ℝ)
      = ⟨(DepletionStrengthening.declare_parameters (⟨[]⟩ : ParameterHandler ℝ)).entries⟩ :=
    rfl
  rw [hentries, declare_parameters_entries]
  simp only [DiffusionCreep.parse_parameters, get_double_cons, String.reduceEq,
    if_false, if_true, Option.pure_def]

theorem default_solidus_lt_liquidus (pressure : ℝ) :
    (DepletionStrengthening.mk 1085.7 1.329e-7 (-5.1e-18) 1475.0 8.0e-8 (-3.2e-18)
        1780.0 4.50e-8 (-2.0e-18) 0.5 8e-11 1.5 0.15 0.0 (1.0e3 : ℝ)).solidus pressure
      < (DepletionStrengthening.mk 1085.7 1.329e-7 (-5.1e-18) 1475.0 8.0e-8 (-3.2e-18)
        1780.0 4.50e-8 (-2.0e-18) 0.5 8e-11 1.5 0.15 0.0 (1.0e3 : ℝ)).liquidus pressure := by
  simp only [DepletionStrengthening.solidus, DepletionStrengthening.liquidus]
  norm_num
  nlinarith [sq_nonneg (62 * pressure - 879000000000)]

/-- C14: for every pressure `P`, composition and position, and every
coefficient set whose solidus lies below its liquidus at `P`, `melt_fraction`
is 0 for every temperature at or below the solidus `A1 + A2*P + A3*P^2` and 1
for every temperature at or above the liquidus `C1 + C2*P + C3*P^2`; the
declared default coefficients are such a set at every pressure. -/
theorem C14_melt_fraction_solidus_liquidus :
    (∀ (pow : ℝ → ℝ → ℝ) (post_exhaustion : DepletionStrengthening ℝ → ℝ → ℝ → ℝ)
        (self : DepletionStrengthening ℝ) (temperature pressure : ℝ)
        (composition position : List ℝ),
      self.solidus pressure < self.liquidus pressure →
      (temperature ≤ self.A1 + self.A2 * pressure + self.A3 * pressure ^ 2 →
        self.melt_fraction pow post_exhaustion temperature pressure composition position
          = 0)
      ∧ (self.C1 + self.C2 * pressure + self.C3 * pressure ^ 2 ≤ temperature →
        self.melt_fraction pow post_exhaustion temperature pressure composition position
          = 1))
    ∧ (∀ (pow : ℝ → ℝ → ℝ) (post_exhaustion : DepletionStrengthening ℝ → ℝ → ℝ → ℝ)
        (self : DepletionStrengthening ℝ) (temperature pressure : ℝ)
        (composition position : List ℝ),
      DepletionStrengthening.configure [] = some self →
      self.solidus pressure < self.liquidus pressure
      ∧ (temperature ≤ self.A1 + self.A2 * pressure + self.A3 * pressure ^ 2 →
        self.melt_fraction pow post_exhaustion temperature pressure composition position
          = 0)
      ∧ (self.C1 + self.C2 * pressure + self.C3 * pressure ^ 2 ≤ temperature →
        self.melt_fraction pow post_exhaustion temperature pressure composition position
          = 1)) := by
  constructor
  · intro pow post_exhaustion self temperature pressure composition position hlt
    exact ⟨melt_fraction_below_solidus _ _ _ _ _ _ _,
      fun h => melt_fraction_above_liquidus _ _ _ _ _ _ _ (lt_of_lt_of_le hlt h) h⟩
  · intro pow post_exhaustion self temperature pressure composition position hconf
    rw [configure_default, Option.some.injEq] at hconf
    subst hconf
    have hlt := default_solidus_lt_liquidus pressure
    exact ⟨hlt, melt_fraction_below_solidus _ _ _ _ _ _ _,
      fun h => melt_fraction_above_liquidus _ _ _ _ _ _ _ (lt_of_lt_of_le hlt h) h⟩

theorem C14_melt_fraction_solidus_liquidus_witness :
    (DepletionStrengthening.mk 1000 0 0 1400 0 0 1700 0 0 0.5 0 1.5 0.15 0
        (1.0e3 : ℝ)).melt_fraction (fun x y => x ^ y) (fun _ _ _ => 1) 900 5 [] [0, 0] = 0
    ∧ (DepletionStrengthening.mk 1085.7 1.329e-7 (-5.1e-18) 1475.0 8.0e-8 (-3.2e-18)
        1780.0 4.50e-8 (-2.0e-18) 0.5 8e-11 1.5 0.15 0.0 (1.0e3 : ℝ)).melt_fraction
        (fun x y => x ^ y) (fun _ _ _ => 1) 1800 0 [] [0, 0] = 1 :=
  ⟨(C14_melt_fraction_solidus_liquidus.1 (fun x y => x ^ y) (fun _ _ _ => 1)
      (DepletionStrengthening.mk 1000 0 0 1400 0 0 1700 0 0 0.5 0 1.5 0.15 0 (1.0e3 : ℝ))
      900 5 [] [0, 0]
      (by simp only [DepletionStrengthening.solidus, DepletionStrengthening.liquidus]
          norm_num)).1 (by norm_num),
   (C14_melt_fraction_solidus_liquidus.2 (fun x y => x ^ y) (fun _ _ _ => 1) _ 1800 0
      [] [0, 0] configure_default).2.2 (by norm_num)⟩

theorem get_double_set_entries (key : String) (v : ℝ) (key₁ : String)
    (es es₁ : List (ParameterEntry ℝ))
    (h : ParameterHandler.set_entries key v es = some es₁) :
    ParameterHandler.get_double ⟨es₁⟩ key₁
      = if key = key₁ then some v else ParameterHandler.get_double ⟨es⟩ key₁ := by
  induction es generalizing es₁ with
  | nil => simp [ParameterHandler.set_entries] at h
  | cons e rest ih =>
    simp only [ParameterHandler.set_entries] at h
    by_cases hk : e.key = key
    · simp only [hk, if_true] at h
      by_cases hm : e.pattern.match_value v = true
      · simp only [hm, if_true, Option.some.injEq] at h
        subst h
        simp only [get_double_cons, hk]
        by_cases hk₁ : key = key₁
        · simp only [hk₁, if_true]
        · simp only [hk₁, if_false]
      · simp [hm] at h
    · simp only [hk, if_false, Option.map_eq_some'] at h
      obtain ⟨rest₁, hrest, rfl⟩ := h
      simp only [get_double_cons, ih rest₁ hrest]
      by_cases hk₁ : e.key = key₁
      · have hne : ¬ key = key₁ := fun heq => hk (hk₁.trans heq.symm)
        simp only [hk₁, if_true, hne, if_false]
      · simp only [hk₁, if_false]

theorem get_double_parse_input (input : List (String × ℝ)) (prm prm₁ : ParameterHandler ℝ)
    (key : String) (current : ℝ)
    (h : prm.parse_input input = some prm₁)
    (hcur : prm.get_double key = some current) :
    prm₁.get_double key = some (configured_value input key current) := by
  induction input generalizing prm current with
  | nil =>
    simp only [ParameterHandler.parse_input, List.foldlM_nil] at h
    cases h
    exact hcur
  | cons kv rest ih =>
    simp only [ParameterHandler.parse_input, List.foldlM_cons] at h
    cases hset : ParameterHandler.set_entries kv.1 kv.2 prm.entries with
    | none => simp [ParameterHandler.set_value, hset] at h
    | some es₁ =>
      simp only [ParameterHandler.set_value, hset, Option.map_some', Option.bind_eq_bind,
        Option.some_bind] at h
      simp only [configured_value]
      apply ih ⟨es₁⟩ _ h
      rw [get_double_set_entries kv.1 kv.2 key prm.entries es₁ hset]
      by_cases hk : kv.1 = key
      · simp only [hk, if_true]
      · simp only [hk, if_false]
        exact hcur

theorem parse_parameters_configured (input : List (String × ℝ)) (prm : ParameterHandler ℝ)
    (h : (DepletionStrengthening.declare_parameters (⟨[]⟩ : ParameterHandler ℝ)).parse_input
      input = some prm) :
    DiffusionCreep.parse_parameters prm
      = some ⟨configured_value input "A1" 1085.7,
          configured_value input "A2" 1.329e-7,
          configured_value input "A3" (-5.1e-18),
          configured_value input "B1" 1475.0,
          configured_value input "B2" 8.0e-8,
          configured_value input "B3" (-3.2e-18),
          configured_value input "C1" 1780.0,
          configured_value input "C2" 4.50e-8,
          configured_value input "C3" (-2.0e-18),
          configured_value input "r1" 0.5,
          configured_value input "r2" 8e-11,
          configured_value input "beta" 1.5,
          configured_value input "Mass fraction cpx" 0.15,
          configured_value input "Exponential depletion strengthening factor" 0.0,
          configured_value input "Maximum Depletion viscosity change" 1.0e3⟩ := by
  have hget : ∀ (key : String) (current : ℝ),
      ParameterHandler.get_double
        ⟨(DepletionStrengthening.declare_parameters (⟨[]⟩ : ParameterHandler ℝ)).entries⟩
        key = some current →
      prm.get_double key = some (configured_value input key current) :=
    fun key current hcur => get_double_parse_input input _ prm key current h hcur
  rw [declare_parameters_entries] at hget
  have h0 := hget "A1" 1085.7 (by simp only [get_double_cons, String.reduceEq, if_false, if_true])
  have h1 := hget "A2" 1.329e-7 (by simp only [get_double_cons, String.reduceEq, if_false, if_true])
  have h2 := hget "A3" (-5.1e-18) (by simp only [get_double_cons, String.reduceEq, if_false, if_true])
  have h3 := hget "B1" 1475.0 (by simp only [get_double_cons, String.reduceEq, if_false, if_true])
  have h4 := hget "B2" 8.0e-8 (by simp only [get_double_cons, String.reduceEq, if_false, if_true])
  have h5 := hget "B3" (-3.2e-18) (by simp only [get_double_cons, String.reduceEq, if_false, if_true])
  have h6 := hget "C1" 1780.0 (by simp only [get_double_cons, String.reduceEq, if_false, if_true])
  have h7 := hget "C2" 4.50e-8 (by simp only [get_double_cons, String.reduceEq, if_false, if_true])
  have h8 := hget "C3" (-2.0e-18) (by simp only [get_double_cons, String.reduceEq, if_false, if_true])
  have h9 := hget "r1" 0.5 (by simp only [get_double_cons, String.reduceEq, if_false, if_true])
  have h10 := hget "r2" 8e-11 (by simp only [get_double_cons, String.reduceEq, if_false, if_true])
  have h11 := hget "beta" 1.5 (by simp only [get_double_cons, String.reduceEq, if_false, if_true])
  have h12 := hget "Mass fraction cpx" 0.15 (by simp only [get_double_cons, String.reduceEq, if_false, if_true])
  have h13 := hget "Exponential depletion strengthening factor" 0.0 (by simp only [get_double_cons, String.reduceEq, if_false, if_true])
  have h14 := hget "Maximum Depletion viscosity change" 1.0e3 (by simp only [get_double_cons, String.reduceEq, if_false, if_true])
  simp only [DiffusionCreep.parse_parameters, h0, h1, h2, h3, h4, h5, h6, h7, h8, h9, h10, h11, h12, h13, h14, Option.pure_def]

/-- C16 (defect of the code): for every input that the declared parameters
accept, the `parse_parameters` that the source file defines, which it defines
under the class name `DiffusionCreep`, reads back under each of the fifteen
names the value configured under its own key: the value of the last assignment
to the key in the input, or the declared default when the input does not
assign it. -/
theorem C16_parse_parameters_roundtrip (input : List (String × ℝ))
    (haccepted : ((DepletionStrengthening.declare_parameters
      (⟨[]⟩ : ParameterHandler ℝ)).parse_input input).isSome = true) :
    ((DepletionStrengthening.declare_parameters
        (⟨[]⟩ : ParameterHandler ℝ)).parse_input input).bind
        DiffusionCreep.parse_parameters
      = some ⟨configured_value input "A1" 1085.7,
          configured_value input "A2" 1.329e-7,
          configured_value input "A3" (-5.1e-18),
          configured_value input "B1" 1475.0,
          configured_value input "B2" 8.0e-8,
          configured_value input "B3" (-3.2e-18),
          configured_value input "C1" 1780.0,
          configured_value input "C2" 4.50e-8,
          configured_value input "C3" (-2.0e-18),
          configured_value input "r1" 0.5,
          configured_value input "r2" 8e-11,
          configured_value input "beta" 1.5,
          configured_value input "Mass fraction cpx" 0.15,
          configured_value input "Exponential depletion strengthening factor" 0.0,
          configured_value input "Maximum Depletion viscosity change" 1.0e3⟩ := by
  obtain ⟨prm, hprm⟩ := Option.isSome_iff_exists.mp haccepted
  simp only [hprm, Option.some_bind]
  exact parse_parameters_configured input prm hprm

theorem C16_parse_parameters_roundtrip_witness :
    ((DepletionStrengthening.declare_parameters (⟨[]⟩ : ParameterHandler ℝ)).parse_input
        [("beta", (2 : ℝ)), ("Maximum Depletion viscosity change", 50), ("beta", 3)]).bind
        DiffusionCreep.parse_parameters
      = some ⟨1085.7, 1.329e-7, -5.1e-18, 1475.0, 8.0e-8, -3.2e-18, 1780.0, 4.50e-8,
          -2.0e-18, 0.5, 8e-11, 3, 0.15, 0.0, 50⟩ :=
  (C16_parse_parameters_roundtrip
    [("beta", (2 : ℝ)), ("Maximum Depletion viscosity change", 50), ("beta", 3)]
    (by
      simp only [ParameterHandler.parse_input, ParameterHandler.set_value,
        declare_parameters_entries, List.foldlM_cons, List.foldlM_nil,
        ParameterHandler.set_entries, String.reduceEq, if_false, if_true,
        Patterns.Double.match_value, Option.all_some, Option.all_none, Bool.and_self,
        Option.map_some', Option.some_bind, Option.bind_eq_bind, Option.pure_def,
        Option.isSome_some, Bool.and_true, (by norm_num : (0 : ℝ) ≤ 50), decide_True])).trans
    (by simp only [configured_value, String.reduceEq, if_false, if_true])

/-- C17 (defect of the code): with the declared defaults ("Exponential
depletion strengthening factor" 0.0 and "Maximum Depletion viscosity change"
1.0e3), the factor of the specification is 1 for every composition vector with
one entry per compositional field; the source function `compute_depl_effect`
returns no factor. -/
theorem C17_default_parameters_neutral (self : DepletionStrengthening ℝ)
    (intro : Introspection) (pressure temperature : ℝ) (composition : List ℝ)
    (hdefault : DepletionStrengthening.configure [] = some self)
    (hlen : composition.length = intro.n_compositional_fields) :
    self.alpha_depletion = 0.0 ∧ self.delta_eta_depletion_max = 1.0e3
    ∧ self.compute_depl_effect Real.exp intro pressure temperature composition = none
    ∧ self.compute_strengthening Real.exp intro pressure temperature composition
        = some 1 := by
  rw [configure_default, Option.some.injEq] at hdefault
  subst hdefault
  refine ⟨rfl, rfl, compute_depl_effect_none _ _ _ _ _, ?_⟩
  cases hfind : intro.compositional_index_for_name "maximum_melt_fraction" with
  | none =>
    apply compute_strengthening_absent
    unfold Introspection.compositional_name_exists
    unfold Introspection.compositional_index_for_name at hfind
    rw [hfind]; rfl
  | some i =>
    have hlt : i < composition.length := by
      rw [hlen]; exact find_name_lt _ _ i hfind
    rw [compute_strengthening_present _ intro pressure temperature composition i _ hfind
      (List.getElem?_eq_getElem hlt)]
    norm_num

theorem C17_default_parameters_neutral_witness :
    (DepletionStrengthening.mk 1085.7 1.329e-7 (-5.1e-18) 1475.0 8.0e-8 (-3.2e-18)
        1780.0 4.50e-8 (-2.0e-18) 0.5 8e-11 1.5 0.15 0.0 (1.0e3 : ℝ)).compute_depl_effect
        Real.exp ⟨["porosity", "maximum_melt_fraction"]⟩ 1e9 1600 [1/10, 9/10] = none
    ∧ (DepletionStrengthening.mk 1085.7 1.329e-7 (-5.1e-18) 1475.0 8.0e-8 (-3.2e-18)
        1780.0 4.50e-8 (-2.0e-18) 0.5 8e-11 1.5 0.15 0.0 (1.0e3 : ℝ)).compute_strengthening
        Real.exp ⟨["porosity", "maximum_melt_fraction"]⟩ 1e9 1600 [1/10, 9/10] = some 1 :=
  (C17_default_parameters_neutral _ ⟨["porosity", "maximum_melt_fraction"]⟩ 1e9 1600
    [1/10, 9/10] configure_default rfl).2.2

/-- C19: when `heating_values` has `N+1` entries, `compute_volume_fractions`
returns `N+1` entries at every evaluation point, and `composition` and
`lhs_latent_heat_terms` have at least `heating_source_terms.size()` entries,
`evaluate` returns, so that every index it uses is in bounds; both output
lists keep their lengths, the entries `q < heating_source_terms.size()` are
written, and the entries of `lhs_latent_heat_terms` from
`heating_source_terms.size()` on are unchanged. -/
theorem C19_evaluate_in_bounds
    (compute_volume_fractions : List ℝ → List Bool → List ℝ)
    (self : CompositionalHeating ℝ) (inputs : MaterialModel.MaterialModelInputs ℝ)
    (outputs : HeatingModelOutputs ℝ) (N : Nat)
    (hheat : self.heating_values.length = N + 1)
    (hvf : ∀ (q : Nat) (hq : q < inputs.composition.length),
      q < outputs.heating_source_terms.length →
      (compute_volume_fractions inputs.composition[q]
        self.fields_used_in_heat_production_averaging).length = N + 1)
    (hcomp : outputs.heating_source_terms.length ≤ inputs.composition.length)
    (hlhs : outputs.heating_source_terms.length ≤ outputs.lhs_latent_heat_terms.length) :
    ∃ out, self.evaluate compute_volume_fractions inputs outputs = some out
      ∧ out.heating_source_terms.length = outputs.heating_source_terms.length
      ∧ out.lhs_latent_heat_terms.length = outputs.lhs_latent_heat_terms.length
      ∧ (∀ q, q < outputs.heating_source_terms.length →
          ∃ composition_q, inputs.composition[q]? = some composition_q
            ∧ out.heating_source_terms[q]?
                = some (List.zipWith (· * ·)
                    (compute_volume_fractions composition_q
                      self.fields_used_in_heat_production_averaging)
                    self.heating_values).sum
            ∧ out.lhs_latent_heat_terms[q]? = some 0)
      ∧ (∀ q, outputs.heating_source_terms.length ≤ q →
          out.lhs_latent_heat_terms[q]? = outputs.lhs_latent_heat_terms[q]?) := by
  have hvf' : ∀ (q : Nat) (hq : q < inputs.composition.length),
      q < outputs.heating_source_terms.length →
      (compute_volume_fractions inputs.composition[q]
        self.fields_used_in_heat_production_averaging).length
        ≤ self.heating_values.length := by
    intro q hq hq₁
    rw [hvf q hq hq₁, hheat]
  refine ⟨_, evaluate_eq compute_volume_fractions self inputs outputs hcomp hlhs hvf',
    ?_, ?_, ?_, ?_⟩
  · simp only [List.length_map, List.length_take]
    exact min_eq_left hcomp
  · simp only [List.length_append, List.length_replicate, List.length_drop]
    omega
  · intro q hq
    have hqc : q < inputs.composition.length := lt_of_lt_of_le hq hcomp
    refine ⟨inputs.composition[q], List.getElem?_eq_getElem hqc, ?_, ?_⟩
    · simp only
      rw [List.getElem?_map, List.getElem?_take_of_lt hq, List.getElem?_eq_getElem hqc]
      rfl
    · simp only
      rw [List.getElem?_append_left (by simpa using hq)]
      simp [hq]
  · intro q hq
    simp only
    rw [List.getElem?_append_right (by simpa using hq)]
    simp only [List.length_replicate, List.getElem?_drop]
    congr 1
    omega

theorem C19_evaluate_in_bounds_witness :
    ∃ out, (CompositionalHeating.mk [true, true, true] [(0 : ℝ), 1e-6, 2e-6]).evaluate
        (fun composition _ => 0 :: composition) ⟨[[0.3, 0.7], [1, 0], [5, 5]]⟩
        ⟨[8, 8], [9, 9, 9]⟩ = some out
      ∧ out.heating_source_terms.length = 2
      ∧ out.lhs_latent_heat_terms.length = 3
      ∧ out.lhs_latent_heat_terms[2]? = some 9 := by
  obtain ⟨out, hout, hlen₁, hlen₂, _, hrest⟩ := C19_evaluate_in_bounds
    (fun composition _ => 0 :: composition)
    (CompositionalHeating.mk [true, true, true] [(0 : ℝ), 1e-6, 2e-6])
    ⟨[[0.3, 0.7], [1, 0], [5, 5]]⟩ ⟨[8, 8], [9, 9, 9]⟩ 2 rfl
    (by
      intro q hq hq₁
      have hq₂ : q < 2 := hq₁
      interval_cases q <;> simp)
    (by simp) (by simp)
  exact ⟨out, hout, hlen₁, hlen₂, hrest 2 (by simp)⟩

end aspect
